import Mathlib

/-!
Verification development for the lit-keystore service: a shallow embedding of
the key-derivation, parameter-validation/templating, ECIES and access-controlled
(Lit) encoders, the encoder orchestrator, and the signature-based authorization
protocol, together with theorems settling the specified properties.
-/

namespace LitKeystore

/-! ## JavaScript string primitives

The source manipulates JS strings (`toLowerCase`, `replace(/pat/g, v)`,
`includes`, `startsWith`, `slice`).  We model them on `String`/`List Char`.
-/

/-- ASCII lower-casing of a single character, as JS `toLowerCase` acts on the
ASCII range (the only range reached here: addresses and hex strings). -/
def jsToLowerChar (c : Char) : Char :=
  if 65 ≤ c.toNat ∧ c.toNat ≤ 90 then Char.ofNat (c.toNat + 32) else c

/-- JS `String.prototype.toLowerCase` restricted to ASCII data. -/
def jsToLower (s : String) : String := ⟨s.data.map jsToLowerChar⟩

/-- JS `$`-substitution in a replacement string, for a regex without capture
groups (the case here: the pattern is `":" + key` with the key matching
`^[a-zA-Z][a-zA-Z0-9_]*$`, so it contains no group syntax): `$$` inserts a
dollar, `$&` the matched substring, a dollar followed by a backtick the
portion of the subject before the match, `$'` the portion after it; any
other `$`-sequence — including `$n` and `$<name>`, since there are no
capture groups — is left literal. -/
def expandReplacement (matched before after : List Char) : List Char → List Char
  | [] => []
  | c :: rest =>
    if c == '$' then
      match rest with
      | [] => [c]
      | d :: rest2 =>
        if d == '$' then '$' :: expandReplacement matched before after rest2
        else if d == '&' then matched ++ expandReplacement matched before after rest2
        else if d == Char.ofNat 96 then before ++ expandReplacement matched before after rest2
        else if d == '\'' then after ++ expandReplacement matched before after rest2
        else c :: expandReplacement matched before after (d :: rest2)
    else c :: expandReplacement matched before after rest

/-- One pass of global replacement: `pre` is the portion of the original
subject already scanned (matching proceeds over the original string, so the
replacement's dollar-backtick/`$'` slices are taken from it); `fuel` bounds
the recursion (it is instantiated with the subject length, enough for any
non-empty pattern). -/
def replaceAllAux (pat rep : List Char) : Nat → List Char → List Char → List Char
  | 0, _, s => s
  | _ + 1, _, [] => []
  | fuel + 1, pre, c :: cs =>
    if pat.isPrefixOf (c :: cs) then
      expandReplacement pat pre ((c :: cs).drop pat.length) rep
        ++ replaceAllAux pat rep fuel (pre ++ pat) ((c :: cs).drop pat.length)
    else
      c :: replaceAllAux pat rep fuel (pre ++ [c]) cs

/-- JS `String.prototype.replace(new RegExp(pat, "g"), rep)` for a literal
pattern `pat` without capture groups (the keys substituted here are
validated against `^[a-zA-Z][a-zA-Z0-9_]*$` first, so the regex is literal
and group-free), including the `$`-substitution JS performs in the
replacement string. -/
def jsReplaceAll (s pat rep : String) : String :=
  ⟨replaceAllAux pat.data rep.data s.data.length [] s.data⟩

/-- Does `pat` occur as a contiguous substring? (JS `String.prototype.includes`.) -/
def containsSubAux (pat : List Char) : List Char → Bool
  | [] => pat.isEmpty
  | c :: cs => pat.isPrefixOf (c :: cs) || containsSubAux pat cs

/-- JS `s.includes(pat)`. -/
def jsIncludes (s pat : String) : Bool := containsSubAux pat.data s.data

/-- JS `s.includes(c)` for a single-character needle. -/
def includesChar (s : String) (c : Char) : Bool := s.data.any (fun d => d == c)

/-- JS `s.startsWith(p)` (also the anchored-prefix regex tests), expressed on
character data so that it evaluates by kernel reduction. -/
def jsStartsWith (s p : String) : Bool := p.data.isPrefixOf s.data

deriving instance DecidableEq for Except

/-! ## Character classes backing the validation regexes -/

def isAlphaChar (c : Char) : Bool :=
  decide ((97 ≤ c.toNat ∧ c.toNat ≤ 122) ∨ (65 ≤ c.toNat ∧ c.toNat ≤ 90))

def isDigitChar (c : Char) : Bool := decide (48 ≤ c.toNat ∧ c.toNat ≤ 57)

def isAlnumChar (c : Char) : Bool := isAlphaChar c || isDigitChar c

/-- `[a-fA-F0-9]` -/
def isHexChar (c : Char) : Bool :=
  isDigitChar c || decide ((97 ≤ c.toNat ∧ c.toNat ≤ 102) ∨ (65 ≤ c.toNat ∧ c.toNat ≤ 70))

/-- `[0-9a-f]` (lower-case hex digit) -/
def isLowerHexChar (c : Char) : Bool :=
  isDigitChar c || decide (97 ≤ c.toNat ∧ c.toNat ≤ 102)

/-! ## Validation regexes of `validateParameters`

Each regex of the source is modelled as an executable predicate on the
string's character data.
-/

/-- `^[a-zA-Z][a-zA-Z0-9_]*$` (parameter keys). -/
def keyOk (s : String) : Bool :=
  match s.data with
  | [] => false
  | c :: cs => isAlphaChar c && cs.all (fun d => isAlnumChar d || d == '_')

/-- `^[a-zA-Z][a-zA-Z0-9]*$` (the `chain` parameter). -/
def chainOk (s : String) : Bool :=
  match s.data with
  | [] => false
  | c :: cs => isAlphaChar c && cs.all isAlnumChar

/-- `^0x[a-fA-F0-9]{40}$` (the `authority` and `userAddress` parameters). -/
def addressOk (s : String) : Bool :=
  match s.data with
  | '0' :: 'x' :: rest => rest.length == 40 && rest.all isHexChar
  | _ => false

/-- `^0x[a-fA-F0-9]{32}$` (the `kid` parameter). -/
def kidOk (s : String) : Bool :=
  match s.data with
  | '0' :: 'x' :: rest => rest.length == 32 && rest.all isHexChar
  | _ => false

/-- A character the JS `.` metacharacter does not match (line terminators). -/
def isLineTerminator (c : Char) : Bool :=
  c == '\n' || c == '\r' || decide (c.toNat = 0x2028) || decide (c.toNat = 0x2029)

/-- `^https?:\/\/.+$` (the `rpc` parameter). -/
def rpcOk (s : String) : Bool :=
  if jsStartsWith s "https://" then
    !(s.drop 8).isEmpty && (s.drop 8).data.all (fun c => !isLineTerminator c)
  else if jsStartsWith s "http://" then
    !(s.drop 7).isEmpty && (s.drop 7).data.all (fun c => !isLineTerminator c)
  else false

/-- The default check of `validateParameters`:
`stringValue.includes('"') || stringValue.includes("'") || stringValue.includes("\\")`,
with single-character needles expressed via `includesChar`. -/
def hasForbiddenChars (v : String) : Bool :=
  includesChar v '"' || includesChar v '\'' || includesChar v '\\'

/-! ## Parameter validation (`validateParameters` of the Lit encoders) -/

/-- The errors thrown by `validateParameters`, carrying the offending
key/value exactly as the source's `Error` messages do. -/
inductive ValidationError where
  | invalidKey (key : String)
  | invalidChain (value : String)
  | invalidAddress (value : String)
  | invalidKid (value : String)
  | invalidRpc (value : String)
  | invalidChars (key value : String)
deriving DecidableEq, Repr

/-- The per-key `switch` of `validateParameters` (the factory encoder's
version, which also has the `rpc` case). -/
def checkParam (key stringValue : String) : Except ValidationError Unit :=
  if key == "chain" then
    if chainOk stringValue then .ok () else .error (.invalidChain stringValue)
  else if key == "authority" || key == "userAddress" then
    if addressOk stringValue then .ok () else .error (.invalidAddress stringValue)
  else if key == "kid" then
    if kidOk stringValue then .ok () else .error (.invalidKid stringValue)
  else if key == "rpc" then
    if rpcOk stringValue then .ok () else .error (.invalidRpc stringValue)
  else
    if hasForbiddenChars stringValue then .error (.invalidChars key stringValue)
    else .ok ()

/-- `validateParameters(parameters)`: walks the entries in order, validates the
key against `^[a-zA-Z][a-zA-Z0-9_]*$`, then the value via the per-key switch,
throwing on the first offender; on success returns the validated entries
(values are already strings here, `String(value)` is the identity). -/
def validateParameters : List (String × String) → Except ValidationError (List (String × String))
  | [] => .ok []
  | (key, stringValue) :: rest =>
    if keyOk key then
      match checkParam key stringValue with
      | .error e => .error e
      | .ok _ =>
        match validateParameters rest with
        | .error e => .error e
        | .ok validated => .ok ((key, stringValue) :: validated)
    else .error (.invalidKey key)

/-! ## The access-control condition tree and `safeReplaceParameters` -/

/-- A JSON-like value: the dynamic structure the access-control templates are
made of (string / number / boolean / null leaves, arrays, objects). -/
inductive JValue where
  | str (s : String)
  | num (n : Int)
  | bool (b : Bool)
  | null
  | arr (items : List JValue)
  | obj (fields : List (String × JValue))
deriving Repr

/-- The string case of `safeReplaceParameters`: for each entry of the
validated map in order, `result = result.replace(new RegExp(":" + key, "g"), value)`. -/
def substituteString (parameters : List (String × String)) (s : String) : String :=
  parameters.foldl (fun result kv => jsReplaceAll result (":" ++ kv.1) kv.2) s

mutual

/-- `safeReplaceParameters(condition, parameters)`: strings have every `:name`
occurrence replaced, arrays and objects are walked recursively, any other
value is returned unchanged. -/
def safeReplaceParameters (parameters : List (String × String)) : JValue → JValue
  | .str s => .str (substituteString parameters s)
  | .num n => .num n
  | .bool b => .bool b
  | .null => .null
  | .arr items => .arr (safeReplaceList parameters items)
  | .obj fields => .obj (safeReplaceFields parameters fields)

/-- The `Array.isArray` branch: `condition.map(item => safeReplaceParameters(item, parameters))`. -/
def safeReplaceList (parameters : List (String × String)) : List JValue → List JValue
  | [] => []
  | x :: xs => safeReplaceParameters parameters x :: safeReplaceList parameters xs

/-- The object branch: each entry's value is replaced recursively, keys
and entry order are preserved. -/
def safeReplaceFields (parameters : List (String × String)) :
    List (String × JValue) → List (String × JValue)
  | [] => []
  | (k, v) :: xs => (k, safeReplaceParameters parameters v) :: safeReplaceFields parameters xs

end

/-- `replaceConditionsParameters(conditions, parameters)`: validates the
parameters (throwing on offenders), then materializes each condition of the
template list through `safeReplaceParameters`. -/
def replaceConditionsParameters (conditions : List JValue)
    (parameters : List (String × String)) : Except ValidationError (List JValue) :=
  match validateParameters parameters with
  | .error e => .error e
  | .ok validatedParams => .ok (safeReplaceList validatedParams conditions)

/-! ## Constants: supported chains, protection-scheme identifiers -/

/-- `supportedChains` of `lib/constants/evm.ts`: the static chain-id → name
lookup table. -/
def supportedChains (chainId : Int) : Option String :=
  if chainId = 421614 then some "arbitrumSepolia"
  else if chainId = 8453 then some "base"
  else none

/-- `getChainName(chainId, fallbackChain)`:
`supportedChains[Number(chainId)] || fallbackChain` (both table entries are
non-empty, hence truthy, so `||` is `Option.getD`). -/
def getChainName (chainId : Int) (fallbackChain : String) : String :=
  (supportedChains chainId).getD fallbackChain

/-- The `ProtectionType` enum of `lib/constants/systemId.ts`. -/
inductive ProtectionType where
  | Clearkey
  | CencDRM_V1
  | CencDRM_LitV1
  | CencDRM_LitSAV1
deriving DecidableEq, Repr

/-- The `KeySystemId` enum of `lib/constants/systemId.ts`. -/
inductive KeySystemId where
  | Clearkey
  | CencDRM_V1
  | CencDRM_LitV1
  | CencDRM_LitSAV1
deriving DecidableEq, Repr

/-- The string value of each `KeySystemId` member. -/
def KeySystemId.value : KeySystemId → String
  | .Clearkey => "e2719d58a985b3c9781ab030af78d30e"
  | .CencDRM_V1 => "bf8ef85d2c54475d8c1ee27db60332a2"
  | .CencDRM_LitV1 => "b785554688e540f8ba99c3e33033fbee"
  | .CencDRM_LitSAV1 => "a17e506d93554710935f1d928eff7594"

/-! ## Data model: protection inputs and encoding results -/

/-- `ProtectionInput` (`lib/encoders/types.ts`): `rpc` and `keystoreUrl` are
optional. -/
structure ProtectionInput where
  authority : String
  ledger : String
  chainId : Int
  rpc : Option String
  keystoreUrl : Option String
deriving DecidableEq, Repr

/-- `LitProtectionInput = ProtectionInput & { kid: string }`, as assembled by
the orchestrator (`{ kid: "0x" + kid, ...protocolParameters }`). -/
structure LitProtectionInput extends ProtectionInput where
  kid : String
deriving DecidableEq, Repr

/-- JS truthiness of a string (`""` is falsy). -/
def jsTruthy (s : String) : Bool := !(s == "")

/-- JS truthiness of an optional string (`undefined` and `""` are falsy). -/
def jsTruthyOpt : Option String → Bool
  | none => false
  | some s => jsTruthy s

/-- JS `String(x)` on an optional string: `String(undefined) = "undefined"`. -/
def jsString : Option String → String
  | none => "undefined"
  | some s => s

/-! ## The factory-configured access-controlled (Lit) encoder -/

/-- `LitEncoderFactoryParams`: the profile the factory closes over. -/
structure LitEncoderFactoryParams where
  keySystemId : KeySystemId
  protectionType : ProtectionType
  actionIpfsId : String
  accessCheckIpfsId : String
deriving DecidableEq, Repr

/-- The EOA profile (`lit-protocol/LitEncoderEOA.ts`). -/
def litEncoderEOAProfile : LitEncoderFactoryParams :=
  { keySystemId := .CencDRM_LitV1
    protectionType := .CencDRM_LitV1
    actionIpfsId := "QmQgw91ZjsT1VkhxtibNV4zMet6vQTtQwL4FK5cRA8xHim"
    accessCheckIpfsId := "QmVdU5MhsQg5mhZNNmp3qx3bbuGw6FPrUGws1yUycY9vsS" }

/-- The Smart-Account profile (`lit-protocol/LitEncoderSA.ts`). -/
def litEncoderSAProfile : LitEncoderFactoryParams :=
  { keySystemId := .CencDRM_LitSAV1
    protectionType := .CencDRM_LitSAV1
    actionIpfsId := "QmWDBNCk1xHk8giLn1cxFrBke7aPFTuXsMDsnn9Pom1wZu"
    accessCheckIpfsId := "QmayEHFfJiZbryYyCsUUEu4drhhDM4FkmxM6RZMcy67zHP" }

/-- The factory encoder's `accessControlsTemplate.unifiedAccessControlConditions`
list (built in the constructor from `accessCheckIpfsId`): a self-referential
script condition, an `and` operator, and the capability condition. -/
def accessControlsTemplate (accessCheckIpfsId : String) : List JValue :=
  [ .obj
      [ ("conditionType", .str "evmBasic")
      , ("contractAddress", .str "")
      , ("standardContractType", .str "")
      , ("chain", .str ":chain")
      , ("method", .str "")
      , ("parameters", .arr [.str ":currentActionIpfsId"])
      , ("returnValueTest", .obj [("comparator", .str "="), ("value", .str ":actionIpfsId")])
      ]
  , .obj [("operator", .str "and")]
  , .obj
      [ ("conditionType", .str "evmBasic")
      , ("contractAddress", .str ("ipfs://" ++ accessCheckIpfsId))
      , ("standardContractType", .str "LitAction")
      , ("chain", .str ":chain")
      , ("method", .str "hasAccessByContentId")
      , ("parameters", .arr [.str ":userAddress", .str ":kid", .str ":authority", .str ":rpc"])
      , ("returnValueTest", .obj [("comparator", .str "="), ("value", .str "true")])
      ]
  ]

/-- Setting a key of a JS object literal: update in place if present,
append otherwise (the semantics of `{ ...obj, key: value }`). -/
def setKey : List (String × String) → String → String → List (String × String)
  | [], k, v => [(k, v)]
  | (k0, v0) :: rest, k, v =>
    if k0 == k then (k, v) :: rest else (k0, v0) :: setKey rest k v

/-- The entries of the spread `...protection` of a `LitProtectionInput`, in the
object's key order (`kid` first — the orchestrator builds
`{ kid: "0x"+kid, ...protocolParameters }` — then the `protocolParameters`
schema order); absent optional properties contribute no entry, `chainId` is
stringified by the later `String(value)`. -/
def protectionEntries (p : LitProtectionInput) : List (String × String) :=
  [("kid", p.kid), ("authority", p.authority), ("ledger", p.ledger),
   ("chainId", toString p.chainId)]
  ++ (match p.rpc with | some r => [("rpc", r)] | none => [])
  ++ (match p.keystoreUrl with | some u => [("keystoreUrl", u)] | none => [])

/-- The parameter object built by the factory encoder's `buildAccessControls`:
`{ ...protection, chain: getChainName(chainId, "ethereum"),
authority: protection?.authority ?? "", actionIpfsId, rpc: String(protection?.rpc) }`. -/
def buildParams (cfg : LitEncoderFactoryParams) (p : LitProtectionInput) :
    List (String × String) :=
  setKey
    (setKey
      (setKey
        (setKey (protectionEntries p) "chain" (getChainName p.chainId "ethereum"))
        "authority" p.authority)
      "actionIpfsId" cfg.actionIpfsId)
    "rpc" (jsString p.rpc)

/-- `buildAccessControls(protection)` of the factory encoder: materializes the
template's condition list through `replaceConditionsParameters` with the
parameter object above. -/
def buildAccessControls (cfg : LitEncoderFactoryParams) (p : LitProtectionInput) :
    Except ValidationError (List JValue) :=
  replaceConditionsParameters (accessControlsTemplate cfg.accessCheckIpfsId) (buildParams cfg p)

/-- The `(ciphertext, dataToEncryptHash)` pair returned by the external
threshold-encryption provider's `encryptString`. -/
structure EncryptResponse where
  ciphertext : String
  dataToEncryptHash : String
deriving DecidableEq, Repr

/-- External collaborators of the Lit encoder: the authority capability probe
(`checkLitProtocolSupport`, whose own RPC failures are already caught and
mapped to `false` in the source), the threshold-encryption provider, the
base64 rendering of the CEK bytes, and the client's configured network name. -/
structure LitEncodeEnv where
  probe : String → String → Bool
  encryptString : List JValue → String → Except String EncryptResponse
  toBase64 : List Nat → String
  litNetwork : String

/-- The `protectionData` record assembled by the factory encoder's
`buildProtectionData`. -/
structure LitProtectionData where
  network : String
  protectionType : ProtectionType
  variant : String
  ciphertext : String
  hash : String
  conditions : List JValue
  rpc : Option String
  authority : String
  actionIpfsId : String
  chainId : Int
  chain : String
deriving Repr

/-- An `EncodingResult` of the Lit branch. -/
structure LitEncodingResult where
  keystore : String
  systemId : KeySystemId
  protectionData : LitProtectionData
deriving Repr

/-- The failures of the Lit encoder's `encode`. -/
inductive LitError where
  | protectionRequired
  | unsupportedScheme
  | validation (e : ValidationError)
  | encryptionFailed (msg : String)
deriving DecidableEq, Repr

/-- The body of the factory encoder's `encode` after the protection-presence
and capability-probe gates: materialize the conditions, call the external
`encryptString`, assemble the `EncodingResult`. -/
def litEncodeCore (env : LitEncodeEnv) (cfg : LitEncoderFactoryParams)
    (cek : List Nat) (p : LitProtectionInput) : Except LitError LitEncodingResult :=
  match buildAccessControls cfg p with
  | .error e => .error (.validation e)
  | .ok conditions =>
    match env.encryptString conditions (env.toBase64 cek) with
    | .error msg => .error (.encryptionFailed msg)
    | .ok resp =>
      .ok
        { keystore := resp.ciphertext
          systemId := cfg.keySystemId
          protectionData :=
            { network := env.litNetwork
              protectionType := cfg.protectionType
              variant := "eth.web3.clearkey"
              ciphertext := resp.ciphertext
              hash := resp.dataToEncryptHash
              conditions := conditions
              rpc := p.rpc
              authority := p.authority
              actionIpfsId := cfg.actionIpfsId
              chainId := p.chainId
              chain := getChainName p.chainId "ethereum" } }

/-- The factory encoder's `encode(cek, protection)`: requires `protection`;
when both `authority` and `rpc` are truthy, probes `supportsLitProtocol` and
fails with the "will be skipped" error on `false`; then runs the body. -/
def litEncode (env : LitEncodeEnv) (cfg : LitEncoderFactoryParams)
    (cek : List Nat) (protection : Option LitProtectionInput) :
    Except LitError LitEncodingResult :=
  match protection with
  | none => .error .protectionRequired
  | some p =>
    if jsTruthy p.authority && jsTruthyOpt p.rpc then
      if !(env.probe p.authority (jsString p.rpc)) then .error .unsupportedScheme
      else litEncodeCore env cfg cek p
    else litEncodeCore env cfg cek p

/-! ## The ECIES encoder and the service's `encodeFor`/`unwrap` -/

/-- The `eth-crypto` cipher object `{iv, ephemPublicKey, ciphertext, mac}`. -/
structure Cipher where
  iv : String
  ephemPublicKey : String
  ciphertext : String
  mac : String
deriving DecidableEq, Repr

/-- External cryptographic collaborators (`eth-crypto`, `elliptic`, Buffer
encodings), modelled as opaque total/fallible functions. -/
structure EciesCrypto where
  keccak256 : String → String
  sign : String → String → String
  derivePublic : String → String
  encryptWithPublicKey : String → String → Cipher
  stringify : Cipher → String
  parse : String → Except String Cipher
  decryptWithPrivateKey : String → Cipher → Except String String
  bytesToBase64 : List Nat → String
  hexToBase64url : String → String

/-- The `format` member of `KeyTransportOption`. -/
inductive KeyFormat where
  | hex
  | base64
deriving DecidableEq, Repr

/-- A lower-case hex digit character. -/
def hexDigitChar (n : Nat) : Char :=
  if n < 10 then Char.ofNat (48 + n) else Char.ofNat (87 + n)

/-- `Buffer.from(bytes).toString("hex")`: two lower-case hex digits per byte. -/
def bytesToHex (bytes : List Nat) : String :=
  ⟨(bytes.map (fun b => [hexDigitChar (b / 16 % 16), hexDigitChar (b % 16)])).flatten⟩

/-- `ECIESKeystoreParameters` (curve fixed to secp256k1 by the service). -/
structure ECIESKeystoreParameters where
  privateKey : String
  remoteKey : Option String
  kid : String
  format : KeyFormat
deriving DecidableEq, Repr

/-- The `data` member of the ECIES `protectionData`:
`{ publicKey, ...protection }`. -/
structure EciesProtectionData where
  protectionType : ProtectionType
  variant : String
  ciphersuite : String
  publicKey : String
  protection : ProtectionInput
deriving DecidableEq, Repr

/-- An `EncodingResult` of the ECIES branch (`systemId`/`protectionData`
are attached only when `protection` was supplied). -/
structure EciesEncodingResult where
  keystore : String
  systemId : Option KeySystemId
  protectionData : Option EciesProtectionData
deriving DecidableEq, Repr

/-- The authority-gateway collaborator behind `pushToBlockchain`: submitting
the `registerIPWithKey` transaction (which may throw), and awaiting its
confirmation (`tx.wait`, which may also fail). -/
structure RegistrationEnv where
  submit : String → String → String → Except String String
  wait : String → Except String Unit

/-- `AuthorityGateway.registerIPWithKey(ledger, contentId, ipKey)`
(`lib/utils/contract.ts`): a submission failure propagates, but a failure of
the awaited confirmation is caught and only logged (`console.warn`), so the
call still resolves. -/
def registerIPWithKey (env : RegistrationEnv) (ledger contentId ipKey : String) :
    Except String Unit :=
  match env.submit ledger contentId ipKey with
  | .error e => .error e
  | .ok tx =>
    match env.wait tx with
    | _ => .ok ()

/-- `ECIESKeystoreManager.encode(cek, protection)`: signs `keccak256(kid)`,
derives/truncates the recipient public key, encrypts the formatted CEK,
optionally registers on chain via `pushToBlockchain` (failure re-thrown),
and returns `signature ++ cipher.stringify(keystore)` as the envelope. -/
def eciesEncode (c : EciesCrypto) (reg : RegistrationEnv)
    (params : ECIESKeystoreParameters) (cek : List Nat)
    (protection : Option ProtectionInput) : Except String EciesEncodingResult :=
  let sig := c.sign params.privateKey (c.keccak256 params.kid)
  let pubKey0 := match params.remoteKey with
    | some k => k
    | none => c.derivePublic params.privateKey
  let pubKey := if 128 < pubKey0.length then pubKey0.drop (pubKey0.length - 128) else pubKey0
  let formattedKey := match params.format with
    | .hex => bytesToHex cek
    | .base64 => c.bytesToBase64 cek
  let keystore := c.encryptWithPublicKey pubKey formattedKey
  match protection with
  | some p =>
    match registerIPWithKey reg p.ledger ("0x" ++ params.kid) (sig ++ c.stringify keystore) with
    | .error e => .error e
    | .ok _ =>
      .ok
        { keystore := sig ++ c.stringify keystore
          systemId := some .CencDRM_V1
          protectionData := some
            { protectionType := .CencDRM_V1
              variant := "eth.web3.clearkey"
              ciphersuite := "e8582013"
              publicKey := pubKey
              protection := p } }
  | none =>
    .ok { keystore := sig ++ c.stringify keystore, systemId := none, protectionData := none }

/-- The `EncryptedKeyFormat` returned by the service's `encodeFor`. -/
structure EncryptedKeyFormat where
  pubKey : String
  sig : String
  raw : String
deriving DecidableEq, Repr

/-- The keystore service's `encodeFor(privateKey, remoteKey, kid, key, options)`
method (used by `transfer`): same signature/truncation/concatenation shape as
the ECIES encoder, over a hex-string key. -/
def encodeFor (c : EciesCrypto) (privateKey : String) (remoteKey : Option String)
    (kid key : String) (format : KeyFormat) : EncryptedKeyFormat :=
  let hashedValue := c.keccak256 kid
  let sig := c.sign privateKey hashedValue
  let pubKey0 := match remoteKey with
    | some k => k
    | none => c.derivePublic privateKey
  let pubKey := if 128 < pubKey0.length then pubKey0.drop (pubKey0.length - 128) else pubKey0
  let formattedKey := match format with
    | .base64 => c.hexToBase64url key
    | .hex => key
  let keystore := c.encryptWithPublicKey pubKey formattedKey
  { pubKey := pubKey, sig := sig, raw := sig ++ c.stringify keystore }

/-- The `{kid, key, guardian}` response of `unwrap`. -/
structure PlaintextResponse where
  kid : String
  key : String
  guardian : String
deriving DecidableEq, Repr

/-- Collaborators and configuration of `unwrap`: `eth-crypto`'s `recover`
(which throws on malformed signatures), `cipher.parse`, the asymmetric
decryption, and the `authorizedProcessors` settings map (address → private
key, insertion-ordered). -/
structure UnwrapEnv where
  keccak256 : String → String
  recover : String → String → Except String String
  parse : String → Except String Cipher
  decryptWithPrivateKey : String → Cipher → Except String String
  authorizedProcessors : List (String × String)

/-- The failures of `unwrap`; `unauthorizedProcessor` is the
`MoleculerError("unauthorized processor or invalid signature", 401,
"UNAUTHORIZED_PROCESSOR")`. -/
inductive UnwrapError where
  | unauthorizedProcessor
  | recoverFailed (msg : String)
  | parseFailed (msg : String)
  | decryptFailed (msg : String)
deriving DecidableEq, Repr

/-- JS object property access on a string-valued object, as an
insertion-ordered association list: the value at a key, if present. -/
def lookupEntry (m : List (String × String)) (k : String) : Option String :=
  (m.find? (fun kv => kv.1 == k)).map (fun kv => kv.2)

/-- `unwrap(kid, data)`: splits off a 132-character signature when the
envelope is `0x`-prefixed (130 otherwise), recovers and lower-cases the
signer, rejects with 401 when `!authorizedProcessors[addr]` (absent — or
empty, which is also falsy in JS), else parses and decrypts the remainder. -/
def unwrap (env : UnwrapEnv) (kid data : String) : Except UnwrapError PlaintextResponse :=
  let siglen : Nat := if jsStartsWith data "0x" then 132 else 130
  let sig := data.take siglen
  match env.recover sig (env.keccak256 kid) with
  | .error e => .error (.recoverFailed e)
  | .ok recovered =>
    let processorAddr := jsToLower recovered
    match lookupEntry env.authorizedProcessors processorAddr with
    | none => .error .unauthorizedProcessor
    | some pk =>
      if pk == "" then .error .unauthorizedProcessor
      else
        match env.parse (data.drop siglen) with
        | .error e => .error (.parseFailed e)
        | .ok jsonKey =>
          match env.decryptWithPrivateKey pk jsonKey with
          | .error e => .error (.decryptFailed e)
          | .ok key => .ok { kid := kid, key := key, guardian := processorAddr }

/-! ## The encoder orchestrator (`create` action) -/

/-- A `MoleculerError` value `(message, code, type)`. -/
structure MolError where
  message : String
  code : Nat
  type : String
deriving DecidableEq, Repr

/-- `new Errors.MoleculerError("No encoding was performed", 400, "NO_ENCODING_PERFORMED")`. -/
def noEncodingPerformed : MolError :=
  { message := "No encoding was performed", code := 400, type := "NO_ENCODING_PERFORMED" }

/-- What one branch contributes to `response.psshInputs`: its result on
success, nothing on failure (the branch `catch` only logs). -/
def branchSuccess {ε α : Type} : Except ε α → List α
  | .ok r => [r]
  | .error _ => []

/-- The contribution of each of the three orchestrator branches: branch 0
(ECIES) only runs behind the `privateKey && !skipEcies` gate; branches 1 and
2 are the EOA and Smart-Account Lit encoders. -/
def branchResults {ε α : Type} (runEcies : Bool) (ecies litEOA litSA : Except ε α) :
    Fin 3 → List α
  | ⟨0, _⟩ => if runEcies then branchSuccess ecies else []
  | ⟨1, _⟩ => branchSuccess litEOA
  | ⟨2, _⟩ => branchSuccess litSA

/-- The `create` handler's orchestration core (`Promise.all` of the three
branches): each branch pushes its result when it succeeds, in completion
order `arrival` (an arbitrary interleaving of the three branches); after the
join, throws `NO_ENCODING_PERFORMED` when nothing was pushed, otherwise
returns the accumulated list. -/
def createAll {ε α : Type} (runEcies : Bool) (ecies litEOA litSA : Except ε α)
    (arrival : List (Fin 3)) : Except MolError (List α) :=
  let psshInputs := (arrival.map (branchResults runEcies ecies litEOA litSA)).flatten
  if psshInputs.isEmpty then .error noEncodingPerformed else .ok psshInputs

/-! ## The key deriver (`generateKeyPair`) -/

/-- `sanitizeUUID(id)` (`utils` mixin): replace every `-` with the empty
string, then lower-case. -/
def sanitizeUUID (id : String) : String := jsToLower (jsReplaceAll id "-" "")

/-- The `{kid, key}` pair of `generateKeyPair`. -/
structure KeyPair where
  kid : String
  key : String
deriving DecidableEq, Repr

/-- The `uuid` library collaborators of one `generateKeyPair` call: `v4` is
the fresh random UUID drawn by this call, `v5 name namespace` is the
deterministic name-based UUID. -/
structure UuidEnv where
  v4 : String
  v5 : String → String → String

/-- The `generateKeyPair` handler: `kid₀ = uuid()`,
`key = sanitizeUUID(uuidFromString(salt, kid₀))`, `kid = sanitizeUUID(kid₀)`. -/
def generateKeyPair (env : UuidEnv) (salt : String) : KeyPair :=
  let kid0 := env.v4
  let key := sanitizeUUID (env.v5 salt kid0)
  { kid := sanitizeUUID kid0, key := key }

/-! ## Helper lemmas: string replacement -/

lemma isPrefixOf_self (l : List Char) : l.isPrefixOf l = true := by
  induction l with
  | nil => rfl
  | cons c cs ih => simp [List.isPrefixOf, ih]

lemma replaceAllAux_of_not_contains (pat rep : List Char) :
    ∀ (l : List Char) (fuel : Nat) (pre : List Char), l.length ≤ fuel →
      containsSubAux pat l = false → replaceAllAux pat rep fuel pre l = l := by
  intro l
  induction l with
  | nil =>
    intro fuel pre _ _
    cases fuel <;> rfl
  | cons c cs ih =>
    intro fuel pre hfuel hsub
    cases fuel with
    | zero => simp at hfuel
    | succ f =>
      simp only [containsSubAux, Bool.or_eq_false_iff] at hsub
      have hlen : cs.length ≤ f := by
        simpa using hfuel
      simp [replaceAllAux, hsub.1, ih f (pre ++ [c]) hlen hsub.2]

lemma jsReplaceAll_no_occurrence (s pat rep : String)
    (h : jsIncludes s pat = false) : jsReplaceAll s pat rep = s := by
  show String.mk (replaceAllAux pat.data rep.data s.data.length [] s.data) = s
  rw [replaceAllAux_of_not_contains pat.data rep.data s.data s.data.length [] le_rfl h]

lemma expandReplacement_no_dollar (matched before after : List Char) :
    ∀ rep : List Char, (∀ c ∈ rep, (c == '$') = false) →
      expandReplacement matched before after rep = rep := by
  intro rep
  induction rep with
  | nil => intro _; rfl
  | cons c rest ih =>
    intro h
    unfold expandReplacement
    rw [if_neg (by simp [h c (by simp)])]
    rw [ih (fun d hd => h d (by simp [hd]))]

lemma replaceAllAux_self (c : Char) (cs rep pre : List Char) :
    replaceAllAux (c :: cs) rep (cs.length + 1) pre (c :: cs) =
      expandReplacement (c :: cs) pre [] rep := by
  have h0 : ∀ f pre', replaceAllAux (c :: cs) rep f pre' [] = [] :=
    fun f pre' => by cases f <;> rfl
  simp only [replaceAllAux, isPrefixOf_self, if_true, List.drop_length]
  simp [h0]

lemma jsReplaceAll_exact (pat rep : String) (h : pat ≠ "")
    (hdollar : includesChar rep '$' = false) :
    jsReplaceAll pat pat rep = rep := by
  have hrep : ∀ c ∈ rep.data, (c == '$') = false := by
    intro c hc
    cases hcb : (c == '$') with
    | false => rfl
    | true =>
      have hceq : c = '$' := by simpa using hcb
      subst hceq
      have hmem : includesChar rep '$' = true := by
        simp only [includesChar, List.any_eq_true]
        exact ⟨'$', hc, by simp⟩
      exact absurd hmem (by simp [hdollar])
  obtain ⟨l⟩ := pat
  cases l with
  | nil => exact absurd (by decide) h
  | cons c cs =>
    show String.mk (replaceAllAux (c :: cs) rep.data (c :: cs).length [] (c :: cs)) = rep
    rw [List.length_cons, replaceAllAux_self, expandReplacement_no_dollar _ _ _ _ hrep]

lemma substituteString_nil (s : String) : substituteString [] s = s := rfl

lemma substituteString_cons (k v : String) (ps : List (String × String)) (s : String) :
    substituteString ((k, v) :: ps) s = substituteString ps (jsReplaceAll s (":" ++ k) v) := rfl

lemma substituteString_skip (k v : String) (ps : List (String × String)) (s : String)
    (h : jsIncludes s (":" ++ k) = false) :
    substituteString ((k, v) :: ps) s = substituteString ps s := by
  rw [substituteString_cons, jsReplaceAll_no_occurrence _ _ _ h]

lemma colon_append_ne_empty (k : String) : (":" ++ k : String) ≠ "" := by
  intro he
  have hd : (':' :: k.data) = ([] : List Char) := congrArg String.data he
  simp at hd

lemma substituteString_hit (k v : String) (ps : List (String × String)) (s : String)
    (h : s = ":" ++ k) (hdollar : includesChar v '$' = false) :
    substituteString ((k, v) :: ps) s = substituteString ps v := by
  subst h
  rw [substituteString_cons, jsReplaceAll_exact _ _ (colon_append_ne_empty k) hdollar]

lemma substituteString_of_keys (ps : List (String × String)) (s : String)
    (h : ∀ k ∈ ps.map Prod.fst, jsIncludes s (":" ++ k) = false) :
    substituteString ps s = s := by
  induction ps with
  | nil => rfl
  | cons kv rest ih =>
    obtain ⟨k, v⟩ := kv
    rw [substituteString_skip k v rest s (h k (by simp))]
    exact ih (fun k' hk' => h k' (by simp [hk']))

/-! ## Helper lemmas: validation -/

lemma validateParameters_ok_of_forall (ps : List (String × String))
    (h : ∀ kv ∈ ps, keyOk kv.1 = true ∧ checkParam kv.1 kv.2 = .ok ()) :
    validateParameters ps = .ok ps := by
  induction ps with
  | nil => rfl
  | cons kv rest ih =>
    obtain ⟨k, v⟩ := kv
    have hk := h (k, v) (by simp)
    simp only [validateParameters, hk.1, if_true, hk.2,
      ih (fun kv' hkv' => h kv' (by simp [hkv']))]

lemma validateParameters_ok_entries (ps qs : List (String × String))
    (h : validateParameters ps = .ok qs) :
    qs = ps ∧ ∀ kv ∈ ps, keyOk kv.1 = true ∧ checkParam kv.1 kv.2 = .ok () := by
  induction ps generalizing qs with
  | nil =>
    refine ⟨?_, by simp⟩
    simpa [validateParameters] using h.symm
  | cons kv rest ih =>
    obtain ⟨k, v⟩ := kv
    by_cases hkey : keyOk k = true
    · simp only [validateParameters, hkey, if_true] at h
      rcases hcp : checkParam k v with e | u
      · rw [hcp] at h
        exact absurd h (by simp)
      · rw [hcp] at h
        rcases hrest : validateParameters rest with e | vs
        · rw [hrest] at h
          exact absurd h (by simp)
        · rw [hrest] at h
          obtain ⟨hvs, hall⟩ := ih vs hrest
          have hq : qs = (k, v) :: vs := by
            simpa using h.symm
          subst hvs
          refine ⟨hq, ?_⟩
          intro kv' hkv'
          rcases List.mem_cons.mp hkv' with hh | ht
          · subst hh
            exact ⟨hkey, by cases u; exact hcp⟩
          · exact hall kv' ht
    · simp only [validateParameters, hkey] at h
      exact absurd h (by simp)

lemma validateParameters_append_error (ps qs : List (String × String))
    (e : ValidationError)
    (hps : validateParameters ps = .ok ps) (hqs : validateParameters qs = .error e) :
    validateParameters (ps ++ qs) = .error e := by
  induction ps with
  | nil => simpa using hqs
  | cons kv rest ih =>
    obtain ⟨k, v⟩ := kv
    obtain ⟨_, hall⟩ := validateParameters_ok_entries _ _ hps
    have hk := hall (k, v) (by simp)
    have hrest : validateParameters rest = .ok rest :=
      validateParameters_ok_of_forall rest (fun kv' hkv' => hall kv' (by simp [hkv']))
    simp only [List.cons_append, validateParameters, hk.1, if_true, hk.2, List.append_eq]
    rw [ih hrest]

/-- `checkParam` agrees with the spec's per-key table (§4.2). -/
def conformsTable (key value : String) : Bool :=
  if key == "chain" then chainOk value
  else if key == "authority" || key == "userAddress" then addressOk value
  else if key == "kid" then kidOk value
  else if key == "rpc" then rpcOk value
  else !(hasForbiddenChars value)

lemma checkParam_ok_iff (key value : String) :
    checkParam key value = .ok () ↔ conformsTable key value = true := by
  unfold checkParam conformsTable
  split
  · split <;> simp_all
  · split
    · split <;> simp_all
    · split
      · split <;> simp_all
      · split
        · split <;> simp_all
        · split <;> simp_all

/-! ## Helper lemmas: `setKey` and `lookupEntry` -/

lemma mem_setKey_self (l : List (String × String)) (k v : String) :
    (k, v) ∈ setKey l k v := by
  induction l with
  | nil => simp [setKey]
  | cons kv rest ih =>
    obtain ⟨k0, v0⟩ := kv
    by_cases h : k0 == k
    · simp [setKey, h]
    · simp only [setKey, h, Bool.false_eq_true, if_false]
      exact List.mem_cons_of_mem _ ih

lemma lookupEntry_nil (k : String) : lookupEntry [] k = none := rfl

lemma lookupEntry_cons (k0 v0 : String) (rest : List (String × String)) (k' : String) :
    lookupEntry ((k0, v0) :: rest) k' =
      if (k0 == k') = true then some v0 else lookupEntry rest k' := by
  by_cases h : (k0 == k') = true
  · rw [if_pos h]
    unfold lookupEntry
    rw [List.find?_cons_of_pos _ (by simpa using h)]
    rfl
  · rw [if_neg h]
    unfold lookupEntry
    rw [List.find?_cons_of_neg _ (by simpa using h)]

lemma beq_false_symm {α : Type} [BEq α] [LawfulBEq α] {k k' : α}
    (h : (k' == k) = false) : (k == k') = false := by
  have := ne_of_beq_false h
  exact beq_eq_false_iff_ne.mpr (fun he => this he.symm)

lemma lookupEntry_setKey_self (l : List (String × String)) (k v : String) :
    lookupEntry (setKey l k v) k = some v := by
  induction l with
  | nil =>
    rw [show setKey [] k v = [(k, v)] from rfl, lookupEntry_cons, if_pos (by simp)]
  | cons kv rest ih =>
    obtain ⟨k0, v0⟩ := kv
    by_cases h : (k0 == k) = true
    · simp only [setKey, h, if_true]
      rw [lookupEntry_cons, if_pos (by simp)]
    · simp only [setKey, h, Bool.false_eq_true, if_false]
      rw [lookupEntry_cons, if_neg (by simpa using h), ih]

lemma lookupEntry_setKey_other (l : List (String × String)) (k v k' : String)
    (h : (k == k') = false) :
    lookupEntry (setKey l k v) k' = lookupEntry l k' := by
  induction l with
  | nil =>
    rw [show setKey [] k v = [(k, v)] from rfl, lookupEntry_cons, if_neg (by simp [h]),
      lookupEntry_nil]
  | cons kv rest ih =>
    obtain ⟨k0, v0⟩ := kv
    by_cases h0 : (k0 == k) = true
    · have hk0 : k0 = k := by simpa using h0
      subst hk0
      simp only [setKey, h0, if_true]
      rw [lookupEntry_cons, if_neg (by simp [h]), lookupEntry_cons, if_neg (by simp [h])]
    · simp only [setKey, h0, Bool.false_eq_true, if_false]
      rw [lookupEntry_cons, lookupEntry_cons, ih]

/-! ## Helper lemmas: characters and UUID sanitization -/

lemma toNat_charOfNat (n : Nat) (h : n < 0xD800) : (Char.ofNat n).toNat = n := by
  unfold Char.ofNat
  rw [dif_pos (Or.inl h)]
  rfl

lemma jsToLowerChar_hex (c : Char) (h : isHexChar c = true) :
    isLowerHexChar (jsToLowerChar c) = true := by
  simp only [isHexChar, isDigitChar, Bool.or_eq_true, decide_eq_true_eq] at h
  unfold jsToLowerChar
  rcases h with h | h | h
  · rw [if_neg (by omega)]
    simp only [isLowerHexChar, isDigitChar, Bool.or_eq_true, decide_eq_true_eq]
    exact Or.inl h
  · rw [if_neg (by omega)]
    simp only [isLowerHexChar, isDigitChar, Bool.or_eq_true, decide_eq_true_eq]
    exact Or.inr h
  · rw [if_pos (by omega)]
    simp only [isLowerHexChar, isDigitChar, Bool.or_eq_true, decide_eq_true_eq]
    rw [toNat_charOfNat _ (by omega)]
    right
    omega

lemma hex_ne_dash (c : Char) (h : isHexChar c = true) : (c == '-') = false := by
  rw [beq_eq_false_iff_ne]
  intro he
  subst he
  exact absurd h (by decide)

lemma replaceAllAux_single_empty (c : Char) (l : List Char) :
    ∀ fuel pre, l.length ≤ fuel →
      replaceAllAux [c] [] fuel pre l = l.filter (fun d => !(d == c)) := by
  induction l with
  | nil =>
    intro fuel pre _
    cases fuel <;> rfl
  | cons d ds ih =>
    intro fuel pre hf
    cases fuel with
    | zero => simp at hf
    | succ f =>
      have hlen : ds.length ≤ f := by simpa using hf
      by_cases hd : (d == c) = true
      · have hdc : d = c := by simpa using hd
        subst hdc
        simp only [replaceAllAux, List.isPrefixOf, isPrefixOf_self, List.filter_cons,
          expandReplacement]
        simp [ih f (pre ++ [d]) hlen]
      · simp only [replaceAllAux, List.isPrefixOf, List.filter_cons]
        have hd' : (d == c) = false := by simpa using hd
        have hcd : (c == d) = false := beq_false_symm hd'
        simp [hcd, hd, ih f (pre ++ [d]) hlen]

lemma sanitizeUUID_data (s : String) :
    (sanitizeUUID s).data = (s.data.filter (fun d => !(d == '-'))).map jsToLowerChar := by
  show ((jsReplaceAll s "-" "").data.map jsToLowerChar) = _
  unfold jsReplaceAll
  show (replaceAllAux ("-").data ("").data s.data.length [] s.data).map jsToLowerChar = _
  rw [show ("-" : String).data = ['-'] from rfl, show ("" : String).data = ([] : List Char) from rfl]
  rw [replaceAllAux_single_empty '-' s.data s.data.length [] le_rfl]

/-- A canonical (RFC 4122 textual form) UUID: five hyphen-separated hex
groups of lengths 8-4-4-4-12. -/
def CanonicalUUID (s : String) : Prop :=
  ∃ g1 g2 g3 g4 g5 : List Char,
    s.data = g1 ++ '-' :: (g2 ++ '-' :: (g3 ++ '-' :: (g4 ++ '-' :: g5))) ∧
    g1.length = 8 ∧ g2.length = 4 ∧ g3.length = 4 ∧ g4.length = 4 ∧ g5.length = 12 ∧
    (g1 ++ g2 ++ g3 ++ g4 ++ g5).all isHexChar = true

/-- 32 lower-case hex characters, no separators. -/
def Hex32Lower (s : String) : Prop :=
  s.data.length = 32 ∧ s.data.all isLowerHexChar = true

lemma sanitizeUUID_canonical (s : String) (h : CanonicalUUID s) :
    Hex32Lower (sanitizeUUID s) := by
  obtain ⟨g1, g2, g3, g4, g5, hdata, h1, h2, h3, h4, h5, hhex⟩ := h
  have hhex' : ∀ c ∈ g1 ++ g2 ++ g3 ++ g4 ++ g5, isHexChar c = true := by
    rw [List.all_eq_true] at hhex
    exact hhex
  have hfil : ∀ g : List Char, (∀ c ∈ g, isHexChar c = true) →
      g.filter (fun d => !(d == '-')) = g := by
    intro g hg
    refine List.filter_eq_self.mpr (fun c hc => ?_)
    rw [hex_ne_dash c (hg c hc)]
    rfl
  have hfilter : s.data.filter (fun d => !(d == '-')) = g1 ++ g2 ++ g3 ++ g4 ++ g5 := by
    rw [hdata]
    simp only [List.filter_append, List.filter_cons]
    rw [hfil g1 (fun c hc => hhex' c (by simp [hc])),
      hfil g2 (fun c hc => hhex' c (by simp [hc])),
      hfil g3 (fun c hc => hhex' c (by simp [hc])),
      hfil g4 (fun c hc => hhex' c (by simp [hc])),
      hfil g5 (fun c hc => hhex' c (by simp [hc]))]
    simp
  constructor
  · rw [sanitizeUUID_data, hfilter]
    simp [h1, h2, h3, h4, h5]
  · rw [sanitizeUUID_data, hfilter]
    rw [List.all_eq_true]
    intro c' hc'
    obtain ⟨c, hc, hcc⟩ := List.mem_map.mp hc'
    subst hcc
    exact jsToLowerChar_hex c (hhex' c hc)

/-! ## Shape of a condition tree (structure preservation) -/

/-- The shape of a `JValue`: constructors with string contents and leaf
values erased, array/object skeleton and object keys kept. -/
inductive JShape where
  | str
  | num
  | bool
  | null
  | arr (items : List JShape)
  | obj (fields : List (String × JShape))
deriving Repr

mutual

def shapeOf : JValue → JShape
  | .str _ => .str
  | .num _ => .num
  | .bool _ => .bool
  | .null => .null
  | .arr items => .arr (shapeOfList items)
  | .obj fields => .obj (shapeOfFields fields)

def shapeOfList : List JValue → List JShape
  | [] => []
  | x :: xs => shapeOf x :: shapeOfList xs

def shapeOfFields : List (String × JValue) → List (String × JShape)
  | [] => []
  | (k, v) :: xs => (k, shapeOf v) :: shapeOfFields xs

end

mutual

theorem shapeOf_safeReplace (ps : List (String × String)) :
    ∀ v : JValue, shapeOf (safeReplaceParameters ps v) = shapeOf v
  | .str _ => rfl
  | .num _ => rfl
  | .bool _ => rfl
  | .null => rfl
  | .arr items => congrArg JShape.arr (shapeOfList_safeReplace ps items)
  | .obj fields => congrArg JShape.obj (shapeOfFields_safeReplace ps fields)

theorem shapeOfList_safeReplace (ps : List (String × String)) :
    ∀ l : List JValue, shapeOfList (safeReplaceList ps l) = shapeOfList l
  | [] => rfl
  | x :: xs => by
    show shapeOf (safeReplaceParameters ps x) :: shapeOfList (safeReplaceList ps xs) =
      shapeOf x :: shapeOfList xs
    rw [shapeOf_safeReplace ps x, shapeOfList_safeReplace ps xs]

theorem shapeOfFields_safeReplace (ps : List (String × String)) :
    ∀ l : List (String × JValue), shapeOfFields (safeReplaceFields ps l) = shapeOfFields l
  | [] => rfl
  | (k, v) :: xs => by
    show (k, shapeOf (safeReplaceParameters ps v)) :: shapeOfFields (safeReplaceFields ps xs) =
      (k, shapeOf v) :: shapeOfFields xs
    rw [shapeOf_safeReplace ps v, shapeOfFields_safeReplace ps xs]

end

mutual

/-- Does some string leaf of the tree equal `needle`? -/
def JValue.hasLeaf (needle : String) : JValue → Bool
  | .str s => s == needle
  | .num _ => false
  | .bool _ => false
  | .null => false
  | .arr items => hasLeafList needle items
  | .obj fields => hasLeafFields needle fields

def hasLeafList (needle : String) : List JValue → Bool
  | [] => false
  | x :: xs => JValue.hasLeaf needle x || hasLeafList needle xs

def hasLeafFields (needle : String) : List (String × JValue) → Bool
  | [] => false
  | (_, v) :: xs => JValue.hasLeaf needle v || hasLeafFields needle xs

end

/-- Does some string leaf of a materialization result equal `needle`? -/
def resultHasLeaf (r : Except ValidationError (List JValue)) (needle : String) : Bool :=
  match r with
  | .error _ => false
  | .ok l => hasLeafList needle l

/-! ## Claim theorems -/

/-- C8: for every chainId with no entry in the supported-chains table (in
particular 999999) the access-controlled encoder resolves the chain-name
parameter to `"ethereum"`, and for a mapped chainId to the table's entry;
the `chain` entry of the parameter object built by `buildAccessControls` is
exactly that resolution. -/
theorem chain_name_resolution :
    (∀ n, supportedChains n = none → getChainName n "ethereum" = "ethereum") ∧
    (∀ n c, supportedChains n = some c → getChainName n "ethereum" = c) ∧
    getChainName 999999 "ethereum" = "ethereum" ∧
    (∀ cfg p, lookupEntry (buildParams cfg p) "chain" =
      some (getChainName p.chainId "ethereum")) := by
  refine ⟨?_, ?_, by decide, ?_⟩
  · intro n h
    simp [getChainName, h]
  · intro n c h
    simp [getChainName, h]
  · intro cfg p
    unfold buildParams
    rw [lookupEntry_setKey_other _ _ _ _ (by decide),
      lookupEntry_setKey_other _ _ _ _ (by decide),
      lookupEntry_setKey_other _ _ _ _ (by decide),
      lookupEntry_setKey_self]

/-- C8 witness: the mapped chain id 421614 resolves to the table's entry. -/
theorem chain_name_resolution_witness :
    supportedChains 421614 = some "arbitrumSepolia" ∧
    getChainName 421614 "ethereum" = "arbitrumSepolia" :=
  ⟨by decide, chain_name_resolution.2.1 421614 "arbitrumSepolia" (by decide)⟩

/-- C7: `generateKeyPair` returns `kid = sanitize(r)` for this call's fresh
random seed `r` and `key = sanitize(nameBasedUUID(salt, r))`; the derivation
is deterministic in `(salt, r)`; and, whenever the uuid library's outputs
are canonical UUIDs, both kid and key are 32 lower-case hex characters with
all grouping hyphens stripped.  (The operation is total: the embedding is a
total function of `salt`, so no error is possible for any string input.) -/
theorem generateKeyPair_derivation (env env2 : UuidEnv) (salt : String)
    (h4 : CanonicalUUID env.v4) (h5 : CanonicalUUID (env.v5 salt env.v4)) :
    (generateKeyPair env salt).kid = sanitizeUUID env.v4 ∧
    (generateKeyPair env salt).key = sanitizeUUID (env.v5 salt env.v4) ∧
    Hex32Lower (generateKeyPair env salt).kid ∧
    Hex32Lower (generateKeyPair env salt).key ∧
    (env2.v4 = env.v4 → env2.v5 salt env2.v4 = env.v5 salt env.v4 →
      generateKeyPair env2 salt = generateKeyPair env salt) := by
  refine ⟨rfl, rfl, sanitizeUUID_canonical _ h4, sanitizeUUID_canonical _ h5, ?_⟩
  intro hseed hname
  rw [hseed] at hname
  simp [generateKeyPair, hseed, hname]

/-- C7 witness: a concrete canonical seed and name-based UUID yield a
32-hex-character kid and key. -/
theorem generateKeyPair_derivation_witness :
    (generateKeyPair
        { v4 := "123e4567-e89b-12d3-a456-426614174000"
          v5 := fun _ _ => "00112233-4455-6677-8899-aabbccddeeff" }
        "content-42").kid = "123e4567e89b12d3a456426614174000" ∧
    Hex32Lower (generateKeyPair
        { v4 := "123e4567-e89b-12d3-a456-426614174000"
          v5 := fun _ _ => "00112233-4455-6677-8899-aabbccddeeff" }
        "content-42").key := by
  have hc1 : CanonicalUUID "123e4567-e89b-12d3-a456-426614174000" :=
    ⟨"123e4567".data, "e89b".data, "12d3".data, "a456".data, "426614174000".data,
      by decide, by decide, by decide, by decide, by decide, by decide, by decide⟩
  have hc2 : CanonicalUUID "00112233-4455-6677-8899-aabbccddeeff" :=
    ⟨"00112233".data, "4455".data, "6677".data, "8899".data, "aabbccddeeff".data,
      by decide, by decide, by decide, by decide, by decide, by decide, by decide⟩
  have h := generateKeyPair_derivation
    { v4 := "123e4567-e89b-12d3-a456-426614174000"
      v5 := fun _ _ => "00112233-4455-6677-8899-aabbccddeeff" }
    { v4 := "123e4567-e89b-12d3-a456-426614174000"
      v5 := fun _ _ => "00112233-4455-6677-8899-aabbccddeeff" }
    "content-42" hc1 hc2
  exact ⟨by decide, h.2.2.2.1⟩

/-- All successes the three branches can contribute, in branch order:
the ECIES result (when the branch runs and succeeds) and the two Lit
results (when they succeed). -/
def orchestratorSuccesses {ε α : Type} (runEcies : Bool)
    (ecies litEOA litSA : Except ε α) : List α :=
  (if runEcies then branchSuccess ecies else []) ++ branchSuccess litEOA ++ branchSuccess litSA

lemma branchResults_flatten {ε α : Type} (runEcies : Bool)
    (ecies litEOA litSA : Except ε α) :
    (([0, 1, 2] : List (Fin 3)).map (branchResults runEcies ecies litEOA litSA)).flatten =
      orchestratorSuccesses runEcies ecies litEOA litSA := by
  show (if runEcies then branchSuccess ecies else []) ++
      (branchSuccess litEOA ++ (branchSuccess litSA ++ [])) = _
  simp [orchestratorSuccesses]

/-- C1: each branch failure of the orchestrator's `create` is caught locally
and only excluded from the pushed results, in whatever completion order the
three concurrent branches finish; the call raises `NO_ENCODING_PERFORMED`
exactly when the accumulated list is empty, and otherwise returns exactly
the successful results (as a multiset — completion order is arbitrary).
In particular, with the ECIES branch failing and both Lit branches
succeeding, it returns exactly those two results and does not raise. -/
theorem createAll_partial_failure_tolerance {ε α : Type} (runEcies : Bool)
    (ecies litEOA litSA : Except ε α) (arrival : List (Fin 3))
    (harr : arrival.Perm [0, 1, 2]) :
    (createAll runEcies ecies litEOA litSA arrival = .error noEncodingPerformed ↔
      orchestratorSuccesses runEcies ecies litEOA litSA = []) ∧
    (orchestratorSuccesses runEcies ecies litEOA litSA ≠ [] →
      ∃ l, createAll runEcies ecies litEOA litSA arrival = .ok l ∧
        l.Perm (orchestratorSuccesses runEcies ecies litEOA litSA)) ∧
    (∀ e a b, runEcies = true → ecies = .error e → litEOA = .ok a → litSA = .ok b →
      ∃ l, createAll runEcies ecies litEOA litSA arrival = .ok l ∧ l.Perm [a, b]) := by
  have hperm :
      ((arrival.map (branchResults runEcies ecies litEOA litSA)).flatten).Perm
        (orchestratorSuccesses runEcies ecies litEOA litSA) := by
    rw [← branchResults_flatten runEcies ecies litEOA litSA]
    exact (harr.map (branchResults runEcies ecies litEOA litSA)).flatten
  have hlen := hperm.length_eq
  constructor
  · unfold createAll
    by_cases hemp :
        (arrival.map (branchResults runEcies ecies litEOA litSA)).flatten.isEmpty = true
    · rw [if_pos hemp]
      have h0 : (arrival.map (branchResults runEcies ecies litEOA litSA)).flatten = [] :=
        List.isEmpty_iff.mp hemp
      rw [h0] at hlen
      simp only [List.length_nil] at hlen
      simp [List.length_eq_zero.mp hlen.symm]
    · rw [if_neg hemp]
      constructor
      · intro h
        exact absurd h (by simp)
      · intro h
        rw [h] at hlen
        simp only [List.length_nil] at hlen
        exact absurd (List.isEmpty_iff.mpr (List.length_eq_zero.mp hlen)) hemp
  refine ⟨?_, ?_⟩
  · intro hne
    refine ⟨(arrival.map (branchResults runEcies ecies litEOA litSA)).flatten, ?_, hperm⟩
    unfold createAll
    rw [if_neg ?_]
    intro hemp
    have h0 := List.isEmpty_iff.mp hemp
    rw [h0] at hlen
    simp only [List.length_nil] at hlen
    exact hne (List.length_eq_zero.mp hlen.symm)
  · intro e a b hrun he h1 h2
    have hsucc : orchestratorSuccesses runEcies ecies litEOA litSA = [a, b] := by
      simp [orchestratorSuccesses, branchSuccess, hrun, he, h1, h2]
    refine ⟨(arrival.map (branchResults runEcies ecies litEOA litSA)).flatten, ?_,
      by rw [← hsucc]; exact hperm⟩
    unfold createAll
    rw [if_neg ?_]
    intro hemp
    have h0 := List.isEmpty_iff.mp hemp
    rw [h0, hsucc] at hlen
    simp at hlen

/-- C1 witness: all-failing branches raise `NO_ENCODING_PERFORMED`
(instantiating the orchestrator theorem at a concrete arrival order). -/
theorem createAll_partial_failure_tolerance_witness :
    (createAll true (Except.error "e1" : Except String Nat) (.error "e2") (.error "e3")
        [2, 0, 1] = .error noEncodingPerformed ↔
      orchestratorSuccesses true (Except.error "e1" : Except String Nat)
        (.error "e2") (.error "e3") = []) :=
  (createAll_partial_failure_tolerance true _ _ _ [2, 0, 1] (by decide)).1

lemma lookupEntry_eq_none_iff (m : List (String × String)) (k : String) :
    lookupEntry m k = none ↔ ∀ v, (k, v) ∉ m := by
  unfold lookupEntry
  rw [Option.map_eq_none', List.find?_eq_none]
  constructor
  · intro h v hv
    have := h (k, v) hv
    simp at this
  · rintro h ⟨k1, v1⟩ hkv
    simp only [Bool.not_eq_true]
    rw [beq_eq_false_iff_ne]
    intro he
    subst he
    exact h v1 hkv

lemma lookupEntry_mem (m : List (String × String)) (k v : String)
    (h : lookupEntry m k = some v) : (k, v) ∈ m := by
  unfold lookupEntry at h
  obtain ⟨kv, hfind, hmap⟩ := Option.map_eq_some'.mp h
  obtain ⟨k1, v1⟩ := kv
  have hm := List.mem_of_find?_eq_some hfind
  have hp : (k1 == k) = true := by simpa using List.find?_some hfind
  have hk : k1 = k := by simpa using hp
  subst hk
  have hv : v1 = v := by simpa using hmap
  subst hv
  exact hm

/-- C2: `unwrap` splits off a signature of 132 hex characters when the
envelope is `0x`-prefixed and 130 otherwise, recovers the signer from
`(signature, keccak256(kid))` and lower-cases it; provided recovery succeeds
and the configured processor secrets are non-empty (they are populated from
wallet private keys at startup), it raises `UNAUTHORIZED_PROCESSOR` (401)
iff the recovered address is not a key of the AuthorizedProcessor map, and
otherwise decrypts the remaining ciphertext with that processor's private
key and returns `{kid, key, guardian = recovered address}`. -/
theorem unwrap_authorization (env : UnwrapEnv) (kid data : String) (recovered : String)
    (hrec : env.recover (data.take (if jsStartsWith data "0x" then 132 else 130))
      (env.keccak256 kid) = .ok recovered)
    (hne : ∀ kv ∈ env.authorizedProcessors, kv.2 ≠ "") :
    (unwrap env kid data = .error .unauthorizedProcessor ↔
      ∀ pk, (jsToLower recovered, pk) ∉ env.authorizedProcessors) ∧
    (∀ pk cipherObj key,
      lookupEntry env.authorizedProcessors (jsToLower recovered) = some pk →
      env.parse (data.drop (if jsStartsWith data "0x" then 132 else 130)) = .ok cipherObj →
      env.decryptWithPrivateKey pk cipherObj = .ok key →
      unwrap env kid data =
        .ok { kid := kid, key := key, guardian := jsToLower recovered }) := by
  constructor
  · simp only [unwrap, hrec]
    cases hlk : lookupEntry env.authorizedProcessors (jsToLower recovered) with
    | none =>
      simp only [hlk, true_iff]
      intro v
      exact (lookupEntry_eq_none_iff _ _).mp hlk v
    | some pk =>
      simp only [hlk]
      have hmem := lookupEntry_mem _ _ _ hlk
      have hpk : pk ≠ "" := hne _ hmem
      rw [if_neg (by simpa using hpk)]
      constructor
      · intro h
        exfalso
        cases hparse : env.parse (data.drop (if jsStartsWith data "0x" then 132 else 130)) with
        | error e =>
          rw [hparse] at h
          simp at h
        | ok cipherObj =>
          rw [hparse] at h
          cases hdec : env.decryptWithPrivateKey pk cipherObj with
          | error e => simp [hdec] at h
          | ok key => simp [hdec] at h
      · intro h
        exact absurd hmem (h pk)
  · intro pk cipherObj key hlk hparse hdec
    simp only [unwrap, hrec, hlk]
    rw [if_neg (by simpa using hne _ (lookupEntry_mem _ _ _ hlk))]
    simp only [hparse, hdec]

/-- A concrete `unwrap` environment for the C2 witness. -/
def cexUnwrapEnv : UnwrapEnv :=
  { keccak256 := fun s => s
    recover := fun _ _ => .ok "0xAbCd"
    parse := fun s => .ok { iv := s, ephemPublicKey := "", ciphertext := s, mac := "" }
    decryptWithPrivateKey := fun _ c => .ok c.ciphertext
    authorizedProcessors := [("0xabcd", "pk1")] }

set_option maxRecDepth 4000 in
/-- C2 witness: a concrete environment in which recovery yields a registered
guardian, so `unwrap` returns the decrypted key and that guardian. -/
theorem unwrap_authorization_witness :
    unwrap cexUnwrapEnv "kid1" "0xSIGDATA" =
      .ok { kid := "kid1", key := (("0xSIGDATA" : String).drop 132), guardian := "0xabcd" } := by
  have h := unwrap_authorization cexUnwrapEnv "kid1" "0xSIGDATA" "0xAbCd" (by decide) (by decide)
  exact h.2 "pk1"
    { iv := (("0xSIGDATA" : String).drop 132), ephemPublicKey := ""
      ciphertext := (("0xSIGDATA" : String).drop 132), mac := "" }
    (("0xSIGDATA" : String).drop 132) (by decide) (by decide) (by decide)

/-! ## The ECIES envelope, decomposed -/

/-- The signature computed by the ECIES paths: the sender's private key over
`keccak256(kid)` — a function of the kid and sender only, never of the CEK. -/
def eciesSignature (c : EciesCrypto) (params : ECIESKeystoreParameters) : String :=
  c.sign params.privateKey (c.keccak256 params.kid)

/-- The recipient public key the ECIES paths encrypt under: the supplied
remote key (or the one derived from the private key), truncated to its
trailing 128 characters when longer. -/
def eciesRecipientKey (c : EciesCrypto) (params : ECIESKeystoreParameters) : String :=
  let pubKey0 := match params.remoteKey with
    | some k => k
    | none => c.derivePublic params.privateKey
  if 128 < pubKey0.length then pubKey0.drop (pubKey0.length - 128) else pubKey0

/-- The transport rendering of the CEK bytes selected by `extraOptions.format`. -/
def eciesFormattedKey (c : EciesCrypto) (params : ECIESKeystoreParameters)
    (cek : List Nat) : String :=
  match params.format with
  | .hex => bytesToHex cek
  | .base64 => c.bytesToBase64 cek

/-- The envelope the ECIES encoder produces:
`signature ++ cipher.stringify(encryptWithPublicKey(pubKey, formattedKey))`. -/
def eciesEnvelope (c : EciesCrypto) (params : ECIESKeystoreParameters)
    (cek : List Nat) : String :=
  eciesSignature c params ++
    c.stringify (c.encryptWithPublicKey (eciesRecipientKey c params)
      (eciesFormattedKey c params cek))

lemma eciesEncode_ok_keystore (c : EciesCrypto) (reg : RegistrationEnv)
    (params : ECIESKeystoreParameters) (cek : List Nat)
    (protection : Option ProtectionInput) (r : EciesEncodingResult)
    (h : eciesEncode c reg params cek protection = .ok r) :
    r.keystore = eciesEnvelope c params cek := by
  cases protection with
  | none =>
    simp only [eciesEncode] at h
    injection h with h2
    rw [← h2]
    rfl
  | some p =>
    simp only [eciesEncode] at h
    split at h
    · exact absurd h (by simp)
    · injection h with h2
      rw [← h2]
      rfl

/-- C5: every envelope produced by the ECIES encode path — both the ECIES
encoder's `encode` and the service's `encodeFor` used by `transfer` — equals
the signature concatenated with the cipher serialization, where the
signature is computed with the sender's private key over `keccak256(kid)`
and never over the CEK (the signature prefix is one and the same term for
any two CEKs). -/
theorem ecies_envelope_invariant (c : EciesCrypto) (reg : RegistrationEnv)
    (params : ECIESKeystoreParameters) (cek cek2 : List Nat)
    (protection : Option ProtectionInput)
    (privateKey kid key : String) (remoteKey : Option String) (fmt : KeyFormat) :
    (∀ r, eciesEncode c reg params cek protection = .ok r →
      r.keystore = eciesSignature c params ++
        c.stringify (c.encryptWithPublicKey (eciesRecipientKey c params)
          (eciesFormattedKey c params cek))) ∧
    eciesSignature c params = c.sign params.privateKey (c.keccak256 params.kid) ∧
    (∀ r r2, eciesEncode c reg params cek protection = .ok r →
      eciesEncode c reg params cek2 protection = .ok r2 →
      ∃ rest rest2, r.keystore = eciesSignature c params ++ rest ∧
        r2.keystore = eciesSignature c params ++ rest2) ∧
    (encodeFor c privateKey remoteKey kid key fmt).raw =
      c.sign privateKey (c.keccak256 kid) ++
        c.stringify (c.encryptWithPublicKey
          (encodeFor c privateKey remoteKey kid key fmt).pubKey
          (match fmt with
            | .base64 => c.hexToBase64url key
            | .hex => key)) ∧
    (encodeFor c privateKey remoteKey kid key fmt).sig =
      c.sign privateKey (c.keccak256 kid) := by
  refine ⟨?_, rfl, ?_, ?_, rfl⟩
  · intro r h
    exact eciesEncode_ok_keystore c reg params cek protection r h
  · intro r r2 h h2
    exact ⟨_, _, eciesEncode_ok_keystore c reg params cek protection r h,
      eciesEncode_ok_keystore c reg params cek2 protection r2 h2⟩
  · cases fmt <;> rfl

/-! ### Concrete ECIES fixtures -/

/-- A concrete crypto environment whose primitives record their inputs. -/
def cexCrypto : EciesCrypto :=
  { keccak256 := fun s => "H" ++ s
    sign := fun pk m => "SIG" ++ pk ++ m
    derivePublic := fun pk => "PUB" ++ pk
    encryptWithPublicKey := fun k m => { iv := k, ephemPublicKey := m, ciphertext := "CT", mac := "MAC" }
    stringify := fun ci => ci.iv ++ ci.ephemPublicKey ++ ci.ciphertext ++ ci.mac
    parse := fun _ => .error "unused"
    decryptWithPrivateKey := fun _ _ => .error "unused"
    bytesToBase64 := fun _ => "B64"
    hexToBase64url := fun s => "B64U" ++ s }

def cexRegOk : RegistrationEnv :=
  { submit := fun _ _ _ => .ok "tx1", wait := fun _ => .ok () }

def cexRegWaitFails : RegistrationEnv :=
  { submit := fun _ _ _ => .ok "tx1", wait := fun _ => .error "transaction reverted" }

def cexEciesParams : ECIESKeystoreParameters :=
  { privateKey := "0xPK", remoteKey := some "REMOTEPUB", kid := "deadbeef", format := .hex }

def cexProtection : ProtectionInput :=
  { authority := "0xAUTH", ledger := "0xLEDGER", chainId := 8453
    rpc := some "https://rpc.example.com", keystoreUrl := none }

/-- C5 witness: a concrete successful encode whose envelope is exactly
signature ++ serialized cipher. -/
theorem ecies_envelope_invariant_witness :
    ∃ r, eciesEncode cexCrypto cexRegOk cexEciesParams [1, 2] none = .ok r ∧
      r.keystore = eciesSignature cexCrypto cexEciesParams ++
        cexCrypto.stringify (cexCrypto.encryptWithPublicKey
          (eciesRecipientKey cexCrypto cexEciesParams)
          (eciesFormattedKey cexCrypto cexEciesParams [1, 2])) := by
  refine ⟨{ keystore := eciesEnvelope cexCrypto cexEciesParams [1, 2]
            systemId := none, protectionData := none }, by decide, ?_⟩
  exact (ecies_envelope_invariant cexCrypto cexRegOk cexEciesParams [1, 2] [1, 2] none
    "0xPK" "kid" "key" none .hex).1 _ (by decide)

/-- C6: whenever the materialized recipient public-key hex string is longer
than 128 characters, the key actually used for encryption is exactly its
trailing 128 characters; keys of length 128 or less are used unchanged —
in `encodeFor` (observable in its `pubKey` field) and in the ECIES encoder
(observable in the `protectionData.publicKey` it returns). -/
theorem pubkey_trailing_truncation (c : EciesCrypto) (reg : RegistrationEnv)
    (privateKey kid key k : String) (fmt : KeyFormat) (cek : List Nat)
    (p : ProtectionInput) :
    (128 < k.length →
      (encodeFor c privateKey (some k) kid key fmt).pubKey = k.drop (k.length - 128)) ∧
    (k.length ≤ 128 → (encodeFor c privateKey (some k) kid key fmt).pubKey = k) ∧
    eciesRecipientKey c { privateKey := privateKey, remoteKey := some k, kid := kid, format := fmt } =
      (if 128 < k.length then k.drop (k.length - 128) else k) ∧
    (∀ r d, eciesEncode c reg
        { privateKey := privateKey, remoteKey := some k, kid := kid, format := fmt }
        cek (some p) = .ok r →
      r.protectionData = some d →
      d.publicKey = (if 128 < k.length then k.drop (k.length - 128) else k)) := by
  refine ⟨?_, ?_, rfl, ?_⟩
  · intro h
    simp [encodeFor, h]
  · intro h
    simp [encodeFor, Nat.not_lt.mpr h]
  · intro r d h hd
    simp only [eciesEncode] at h
    split at h
    · exact absurd h (by simp)
    · injection h with h2
      rw [← h2] at hd
      simp only [EciesEncodingResult.protectionData] at hd
      injection hd with hd2
      rw [← hd2]

/-- A 130-character public key (to exercise the truncation). -/
def cexLongKey : String :=
  "0123456789012345678901234567890123456789012345678901234567890123456789012345678901234567890123456789012345678901234567890123456789"

set_option maxRecDepth 8000 in
/-- C6 witness: a 130-character key is truncated to its trailing 128
characters (the leading "01" is dropped). -/
theorem pubkey_trailing_truncation_witness :
    128 < cexLongKey.length ∧
    (encodeFor cexCrypto "0xPK" (some cexLongKey) "kid" "key" .hex).pubKey =
      cexLongKey.drop (cexLongKey.length - 128) :=
  ⟨by decide, (pubkey_trailing_truncation cexCrypto cexRegOk "0xPK" "kid" "key"
    cexLongKey .hex [] cexProtection).1 (by decide)⟩

/-- C9 counterexample: the registration transaction submits, but its awaited
confirmation fails — the on-chain registration has failed, yet
`AuthorityGateway.registerIPWithKey` swallows the `tx.wait` error
(`console.warn`) and the ECIES branch still returns an `EncodingResult`,
contradicting "no EncodingResult is returned from that branch when
registration fails". -/
theorem ecies_registration_wait_failure_counterexample :
    cexRegWaitFails.wait "tx1" = .error "transaction reverted" ∧
    registerIPWithKey cexRegWaitFails "0xLEDGER" ("0x" ++ "deadbeef")
      (eciesEnvelope cexCrypto cexEciesParams [171, 205]) = .ok () ∧
    (eciesEncode cexCrypto cexRegWaitFails cexEciesParams [171, 205]
      (some cexProtection)).isOk = true :=
  ⟨by decide, by decide, by decide⟩

/-- C9 (amended): with a protection argument, the ECIES encoder invokes
`registerIPWithKey(ledger, "0x"+kid, envelope)` before returning; a failure
raised by the registration submission is re-thrown, so the branch fails and
no `EncodingResult` is returned; but once the transaction is submitted, a
failure of its awaited confirmation is swallowed inside the gateway, and the
branch still returns its result. -/
theorem ecies_registration_amended (c : EciesCrypto) (reg : RegistrationEnv)
    (params : ECIESKeystoreParameters) (cek : List Nat) (p : ProtectionInput) :
    (∀ e, reg.submit p.ledger ("0x" ++ params.kid) (eciesEnvelope c params cek) = .error e →
      eciesEncode c reg params cek (some p) = .error e) ∧
    (∀ tx, reg.submit p.ledger ("0x" ++ params.kid) (eciesEnvelope c params cek) = .ok tx →
      ∃ r, eciesEncode c reg params cek (some p) = .ok r ∧
        r.keystore = eciesEnvelope c params cek) := by
  constructor
  · intro e hsubmit
    simp only [eciesEnvelope, eciesSignature, eciesRecipientKey, eciesFormattedKey] at hsubmit
    simp only [eciesEncode, registerIPWithKey, hsubmit]
  · intro tx hsubmit
    simp only [eciesEnvelope, eciesSignature, eciesRecipientKey, eciesFormattedKey] at hsubmit
    refine ⟨{ keystore := eciesEnvelope c params cek
              systemId := some .CencDRM_V1
              protectionData := some
                { protectionType := .CencDRM_V1
                  variant := "eth.web3.clearkey"
                  ciphersuite := "e8582013"
                  publicKey := eciesRecipientKey c params
                  protection := p } }, ?_, rfl⟩
    simp only [eciesEncode, registerIPWithKey, hsubmit]
    rfl

/-- C9 amended witness: a failing submission aborts the branch with the
same error. -/
theorem ecies_registration_amended_witness :
    eciesEncode cexCrypto
      { submit := fun _ _ _ => .error "submit failed", wait := fun _ => .ok () }
      cexEciesParams [1] (some cexProtection) = .error "submit failed" :=
  (ecies_registration_amended cexCrypto
    { submit := fun _ _ _ => .error "submit failed", wait := fun _ => .ok () }
    cexEciesParams [1] cexProtection).1 "submit failed" (by decide)

/-! ## C10 apparatus: the parameter object always carries an `rpc` entry -/

lemma chainOk_getChainName (n : Int) : chainOk (getChainName n "ethereum") = true := by
  unfold getChainName supportedChains
  split_ifs <;> decide

lemma checkParam_chain_eq (v : String) :
    checkParam "chain" v = if chainOk v then .ok () else .error (.invalidChain v) := rfl

lemma checkParam_authority_eq (v : String) :
    checkParam "authority" v = if addressOk v then .ok () else .error (.invalidAddress v) := rfl

lemma checkParam_kid_eq (v : String) :
    checkParam "kid" v = if kidOk v then .ok () else .error (.invalidKid v) := rfl

lemma checkParam_rpc_eq (v : String) :
    checkParam "rpc" v = if rpcOk v then .ok () else .error (.invalidRpc v) := rfl

lemma checkParam_ledger_eq (v : String) :
    checkParam "ledger" v =
      if hasForbiddenChars v then .error (.invalidChars "ledger" v) else .ok () := rfl

lemma checkParam_chainId_eq (v : String) :
    checkParam "chainId" v =
      if hasForbiddenChars v then .error (.invalidChars "chainId" v) else .ok () := rfl

lemma checkParam_keystoreUrl_eq (v : String) :
    checkParam "keystoreUrl" v =
      if hasForbiddenChars v then .error (.invalidChars "keystoreUrl" v) else .ok () := rfl

lemma checkParam_actionIpfsId_eq (v : String) :
    checkParam "actionIpfsId" v =
      if hasForbiddenChars v then .error (.invalidChars "actionIpfsId" v) else .ok () := rfl

lemma buildParams_rpc_none_none (cfg : LitEncoderFactoryParams) (p : LitProtectionInput)
    (hrpc : p.rpc = none) (hku : p.keystoreUrl = none) :
    buildParams cfg p =
      [("kid", p.kid), ("authority", p.authority), ("ledger", p.ledger),
       ("chainId", toString p.chainId),
       ("chain", getChainName p.chainId "ethereum"),
       ("actionIpfsId", cfg.actionIpfsId), ("rpc", "undefined")] := by
  unfold buildParams protectionEntries
  rw [hrpc, hku]
  rfl

lemma buildParams_rpc_none_some (cfg : LitEncoderFactoryParams) (p : LitProtectionInput)
    (u : String) (hrpc : p.rpc = none) (hku : p.keystoreUrl = some u) :
    buildParams cfg p =
      [("kid", p.kid), ("authority", p.authority), ("ledger", p.ledger),
       ("chainId", toString p.chainId), ("keystoreUrl", u),
       ("chain", getChainName p.chainId "ethereum"),
       ("actionIpfsId", cfg.actionIpfsId), ("rpc", "undefined")] := by
  unfold buildParams protectionEntries
  rw [hrpc, hku]
  rfl

lemma validate_buildParams_rpc_none (cfg : LitEncoderFactoryParams) (p : LitProtectionInput)
    (hrpc : p.rpc = none)
    (hkid : kidOk p.kid = true) (haddr : addressOk p.authority = true)
    (hled : hasForbiddenChars p.ledger = false)
    (hcid : hasForbiddenChars (toString p.chainId) = false)
    (hku : ∀ u, p.keystoreUrl = some u → hasForbiddenChars u = false)
    (hact : hasForbiddenChars cfg.actionIpfsId = false) :
    validateParameters (buildParams cfg p) = .error (.invalidRpc "undefined") := by
  have hback : validateParameters [("rpc", "undefined")] =
      .error (.invalidRpc "undefined") := by decide
  rcases hkus : p.keystoreUrl with _ | u
  · rw [buildParams_rpc_none_none cfg p hrpc hkus]
    have hfront : validateParameters
        [("kid", p.kid), ("authority", p.authority), ("ledger", p.ledger),
         ("chainId", toString p.chainId),
         ("chain", getChainName p.chainId "ethereum"),
         ("actionIpfsId", cfg.actionIpfsId)] =
        .ok [("kid", p.kid), ("authority", p.authority), ("ledger", p.ledger),
         ("chainId", toString p.chainId),
         ("chain", getChainName p.chainId "ethereum"),
         ("actionIpfsId", cfg.actionIpfsId)] := by
      refine validateParameters_ok_of_forall _ ?_
      intro kv hkv
      simp only [List.mem_cons, List.not_mem_nil, or_false] at hkv
      rcases hkv with h | h | h | h | h | h <;> subst h
      · exact ⟨(by decide : keyOk "kid" = true),
          show checkParam "kid" p.kid = .ok () by rw [checkParam_kid_eq]; simp [hkid]⟩
      · exact ⟨(by decide : keyOk "authority" = true),
          show checkParam "authority" p.authority = .ok () by
            rw [checkParam_authority_eq]; simp [haddr]⟩
      · exact ⟨(by decide : keyOk "ledger" = true),
          show checkParam "ledger" p.ledger = .ok () by rw [checkParam_ledger_eq]; simp [hled]⟩
      · exact ⟨(by decide : keyOk "chainId" = true),
          show checkParam "chainId" (toString p.chainId) = .ok () by
            rw [checkParam_chainId_eq]; simp [hcid]⟩
      · exact ⟨(by decide : keyOk "chain" = true),
          show checkParam "chain" (getChainName p.chainId "ethereum") = .ok () by
            rw [checkParam_chain_eq]; simp [chainOk_getChainName]⟩
      · exact ⟨(by decide : keyOk "actionIpfsId" = true),
          show checkParam "actionIpfsId" cfg.actionIpfsId = .ok () by
            rw [checkParam_actionIpfsId_eq]; simp [hact]⟩
    have := validateParameters_append_error _ _ _ hfront hback
    simpa using this
  · rw [buildParams_rpc_none_some cfg p u hrpc hkus]
    have hfront : validateParameters
        [("kid", p.kid), ("authority", p.authority), ("ledger", p.ledger),
         ("chainId", toString p.chainId), ("keystoreUrl", u),
         ("chain", getChainName p.chainId "ethereum"),
         ("actionIpfsId", cfg.actionIpfsId)] =
        .ok [("kid", p.kid), ("authority", p.authority), ("ledger", p.ledger),
         ("chainId", toString p.chainId), ("keystoreUrl", u),
         ("chain", getChainName p.chainId "ethereum"),
         ("actionIpfsId", cfg.actionIpfsId)] := by
      refine validateParameters_ok_of_forall _ ?_
      intro kv hkv
      simp only [List.mem_cons, List.not_mem_nil, or_false] at hkv
      rcases hkv with h | h | h | h | h | h | h <;> subst h
      · exact ⟨(by decide : keyOk "kid" = true),
          show checkParam "kid" p.kid = .ok () by rw [checkParam_kid_eq]; simp [hkid]⟩
      · exact ⟨(by decide : keyOk "authority" = true),
          show checkParam "authority" p.authority = .ok () by
            rw [checkParam_authority_eq]; simp [haddr]⟩
      · exact ⟨(by decide : keyOk "ledger" = true),
          show checkParam "ledger" p.ledger = .ok () by rw [checkParam_ledger_eq]; simp [hled]⟩
      · exact ⟨(by decide : keyOk "chainId" = true),
          show checkParam "chainId" (toString p.chainId) = .ok () by
            rw [checkParam_chainId_eq]; simp [hcid]⟩
      · exact ⟨(by decide : keyOk "keystoreUrl" = true),
          show checkParam "keystoreUrl" u = .ok () by
            rw [checkParam_keystoreUrl_eq]; simp [hku u hkus]⟩
      · exact ⟨(by decide : keyOk "chain" = true),
          show checkParam "chain" (getChainName p.chainId "ethereum") = .ok () by
            rw [checkParam_chain_eq]; simp [chainOk_getChainName]⟩
      · exact ⟨(by decide : keyOk "actionIpfsId" = true),
          show checkParam "actionIpfsId" cfg.actionIpfsId = .ok () by
            rw [checkParam_actionIpfsId_eq]; simp [hact]⟩
    have := validateParameters_append_error _ _ _ hfront hback
    simpa using this

lemma litEncodeCore_ok_validate (env : LitEncodeEnv) (cfg : LitEncoderFactoryParams)
    (cek : List Nat) (p : LitProtectionInput) (r : LitEncodingResult)
    (h : litEncodeCore env cfg cek p = .ok r) :
    ∃ qs, validateParameters (buildParams cfg p) = .ok qs := by
  unfold litEncodeCore buildAccessControls replaceConditionsParameters at h
  rcases hv : validateParameters (buildParams cfg p) with e | qs
  · rw [hv] at h
    simp at h
  · exact ⟨qs, rfl⟩

/-- C10: when a Lit (access-controlled) encoder's `encode` is called with a
protection argument whose `rpc` is absent, the `rpc` parameter is
materialized as `String(undefined) = "undefined"` and the call fails with a
validation error — the invalid-RPC-URL error once the other parameters are
well-formed — even though `rpc` is declared optional in `ProtectionInput`;
conversely an encode can only succeed when an `rpc` matching the URL
pattern was supplied. -/
theorem lit_encode_requires_rpc (env : LitEncodeEnv) (cfg : LitEncoderFactoryParams)
    (cek : List Nat) (p : LitProtectionInput) :
    (p.rpc = none → ∃ ve, litEncode env cfg cek (some p) = .error (.validation ve)) ∧
    (p.rpc = none → kidOk p.kid = true → addressOk p.authority = true →
      hasForbiddenChars p.ledger = false →
      hasForbiddenChars (toString p.chainId) = false →
      (∀ u, p.keystoreUrl = some u → hasForbiddenChars u = false) →
      hasForbiddenChars cfg.actionIpfsId = false →
      litEncode env cfg cek (some p) = .error (.validation (.invalidRpc "undefined"))) ∧
    (∀ r, litEncode env cfg cek (some p) = .ok r →
      ∃ u, p.rpc = some u ∧ rpcOk u = true) := by
  have hgate : p.rpc = none → (jsTruthy p.authority && jsTruthyOpt p.rpc) = false := by
    intro hrpc
    rw [hrpc]
    simp [jsTruthyOpt]
  have hmem : ("rpc", jsString p.rpc) ∈ buildParams cfg p := by
    unfold buildParams
    exact mem_setKey_self _ _ _
  refine ⟨?_, ?_, ?_⟩
  · intro hrpc
    rcases hv : validateParameters (buildParams cfg p) with e | qs
    · refine ⟨e, ?_⟩
      simp only [litEncode, hgate hrpc, Bool.false_eq_true, if_false]
      unfold litEncodeCore buildAccessControls replaceConditionsParameters
      rw [hv]
    · exfalso
      obtain ⟨_, hall⟩ := validateParameters_ok_entries _ _ hv
      have hrpcok : checkParam "rpc" (jsString p.rpc) = .ok () := (hall _ hmem).2
      rw [checkParam_rpc_eq, hrpc, show jsString none = "undefined" from rfl,
        show rpcOk "undefined" = false from by decide] at hrpcok
      simp at hrpcok
  · intro hrpc hkid haddr hled hcid hku hact
    simp only [litEncode, hgate hrpc, Bool.false_eq_true, if_false]
    unfold litEncodeCore buildAccessControls replaceConditionsParameters
    rw [validate_buildParams_rpc_none cfg p hrpc hkid haddr hled hcid hku hact]
  · intro r h
    simp only [litEncode] at h
    have hcore : litEncodeCore env cfg cek p = .ok r := by
      split at h
      · split at h
        · exact absurd h (by simp)
        · exact h
      · exact h
    obtain ⟨qs, hv⟩ := litEncodeCore_ok_validate env cfg cek p r hcore
    obtain ⟨_, hall⟩ := validateParameters_ok_entries _ _ hv
    have hrpcok : checkParam "rpc" (jsString p.rpc) = .ok () := (hall _ hmem).2
    rw [checkParam_rpc_eq] at hrpcok
    rcases hrv : p.rpc with _ | u
    · rw [hrv, show jsString none = "undefined" from rfl,
        show rpcOk "undefined" = false from by decide] at hrpcok
      simp at hrpcok
    · refine ⟨u, rfl, ?_⟩
      rw [hrv, show jsString (some u) = u from rfl] at hrpcok
      cases hro : rpcOk u with
      | true => rfl
      | false =>
        rw [hro] at hrpcok
        simp at hrpcok

/-- A concrete Lit environment (always-probing true, canned ciphertext). -/
def cexLitEnv : LitEncodeEnv :=
  { probe := fun _ _ => true
    encryptString := fun _ _ => .ok { ciphertext := "CT", dataToEncryptHash := "HASH" }
    toBase64 := fun _ => "B64"
    litNetwork := "datil" }

/-- A protection input with every field well-formed except that `rpc` is
absent. -/
def cexLitProtectionNoRpc : LitProtectionInput :=
  { kid := "0xdeadbeefdeadbeefdeadbeefdeadbeef"
    authority := "0x1234567890123456789012345678901234567890"
    ledger := "elacity", chainId := 8453, rpc := none, keystoreUrl := none }

set_option maxRecDepth 4000 in
/-- C10 witness: the EOA Lit encoder rejects a well-formed protection whose
`rpc` is absent with the invalid-RPC-URL error on `"undefined"`. -/
theorem lit_encode_requires_rpc_witness :
    litEncode cexLitEnv litEncoderEOAProfile [1, 2] (some cexLitProtectionNoRpc) =
      .error (.validation (.invalidRpc "undefined")) :=
  (lit_encode_requires_rpc cexLitEnv litEncoderEOAProfile [1, 2] cexLitProtectionNoRpc).2.1
    rfl (by decide) (by decide) (by decide) (by decide)
    (fun u hu => by
      have hu' : (none : Option String) = some u := hu
      cases hu')
    (by decide)

/-! ## C3: the injection-defense boundary of `validateParameters` -/

/-- C3 counterexample: an `rpc` value containing a backslash passes
validation — `^https?:\/\/.+$` accepts any non-line-terminator characters —
so "validation fails whenever any parameter's value contains a double
quote, a single quote, or a backslash" is false as stated. -/
theorem validate_quote_backslash_counterexample :
    validateParameters [("rpc", "https://x\\y")] = .ok [("rpc", "https://x\\y")] ∧
    hasForbiddenChars "https://x\\y" = true :=
  ⟨by decide, by decide⟩

lemma checkParam_default_error (k v : String)
    (hk : k ∉ (["chain", "authority", "userAddress", "kid", "rpc"] : List String))
    (hv : hasForbiddenChars v = true) :
    checkParam k v = .error (.invalidChars k v) := by
  simp only [List.mem_cons, List.not_mem_nil, or_false, not_or] at hk
  obtain ⟨h1, h2, h3, h4, h5⟩ := hk
  unfold checkParam
  rw [if_neg (by simpa using h1)]
  rw [if_neg (by simp [beq_eq_false_iff_ne.mpr h2, beq_eq_false_iff_ne.mpr h3])]
  rw [if_neg (by simpa using h4)]
  rw [if_neg (by simpa using h5)]
  rw [if_pos hv]

/-- C3 (amended): validation succeeds for every map whose keys match
`^[a-zA-Z][a-zA-Z0-9_]*$` and whose values conform to the per-key table of
§4.2, and a value containing `"`, `'` or `\` makes validation fail whenever
its key is outside the five table-specific keys; for the table keys the
key-specific pattern alone governs (the chain/address/kid patterns exclude
those characters anyway, but an `rpc` URL may contain them and still pass,
as the counterexample shows). -/
theorem validate_injection_amended :
    (∀ ps : List (String × String),
      (∀ kv ∈ ps, keyOk kv.1 = true ∧ conformsTable kv.1 kv.2 = true) →
      validateParameters ps = .ok ps) ∧
    (∀ (ps : List (String × String)) (k v : String), (k, v) ∈ ps →
      k ∉ (["chain", "authority", "userAddress", "kid", "rpc"] : List String) →
      hasForbiddenChars v = true →
      ∃ e, validateParameters ps = .error e) := by
  constructor
  · intro ps h
    exact validateParameters_ok_of_forall ps
      (fun kv hkv => ⟨(h kv hkv).1, (checkParam_ok_iff _ _).mpr (h kv hkv).2⟩)
  · intro ps
    induction ps with
    | nil =>
      intro k v hm
      simp at hm
    | cons kv rest ih =>
      intro k v hm hk hv
      obtain ⟨k0, v0⟩ := kv
      by_cases hkey : keyOk k0 = true
      · rcases hcp : checkParam k0 v0 with e | u
        · exact ⟨e, by simp [validateParameters, hkey, hcp]⟩
        · rcases List.mem_cons.mp hm with hh | ht
          · injection hh with he1 he2
            subst he1
            subst he2
            rw [checkParam_default_error k v hk hv] at hcp
            exact absurd hcp (by simp)
          · obtain ⟨e, he⟩ := ih k v ht hk hv
            exact ⟨e, by simp [validateParameters, hkey, hcp, he]⟩
      · exact ⟨.invalidKey k0, by simp [validateParameters, hkey]⟩

set_option maxRecDepth 8000 in
/-- C3 witness: the spec's §8 scenario map passes validation. -/
theorem validate_injection_amended_witness :
    validateParameters
      [("chain", "ethereum"),
       ("authority", "0x1234567890123456789012345678901234567890"),
       ("kid", "0xdeadbeefdeadbeefdeadbeefdeadbeef"),
       ("rpc", "https://rpc.example.com")] =
      .ok
      [("chain", "ethereum"),
       ("authority", "0x1234567890123456789012345678901234567890"),
       ("kid", "0xdeadbeefdeadbeefdeadbeefdeadbeef"),
       ("rpc", "https://rpc.example.com")] :=
  validate_injection_amended.1 _ (by decide)

/-! ## C4: template substitution -/

/-- The parameter map the factory encoder builds for a protection with `rpc`
present and `keystoreUrl` absent, with concrete well-formed values. -/
def cexSubstParams : List (String × String) :=
  [("kid", "0xdeadbeefdeadbeefdeadbeefdeadbeef"),
   ("authority", "0x1234567890123456789012345678901234567890"),
   ("ledger", "elacity"),
   ("chainId", "8453"),
   ("rpc", "https://rpc.example.com"),
   ("chain", "base"),
   ("actionIpfsId", "QmQgw91ZjsT1VkhxtibNV4zMet6vQTtQwL4FK5cRA8xHim")]

set_option maxRecDepth 16000 in
/-- C4 counterexample: the parameter map passes validation, yet the
materialized structure still contains the literal placeholder token
`:userAddress` (the template's `:userAddress` and `:currentActionIpfsId`
placeholders are bound by no parameter and survive substitution), so "the
materialized output never contains a literal `:name` placeholder token" is
false as stated. -/
theorem substitution_placeholder_counterexample :
    validateParameters cexSubstParams = .ok cexSubstParams ∧
    resultHasLeaf
      (replaceConditionsParameters
        (accessControlsTemplate "QmVdU5MhsQg5mhZNNmp3qx3bbuGw6FPrUGws1yUycY9vsS")
        cexSubstParams)
      ":userAddress" = true :=
  ⟨by decide, by decide⟩

/-- The keys of the parameter object the factory encoder substitutes. -/
def substKeys : List String :=
  ["kid", "authority", "ledger", "chainId", "rpc", "chain", "actionIpfsId"]

/-- `v` contains no `:name` token for any name in `keys`. -/
def TokenFreeFor (v : String) (keys : List String) : Prop :=
  ∀ k ∈ keys, jsIncludes v (":" ++ k) = false

lemma TokenFreeFor.mono {v : String} {keys keys' : List String}
    (h : TokenFreeFor v keys) (hsub : ∀ k ∈ keys', k ∈ keys) : TokenFreeFor v keys' :=
  fun k hk => h k (hsub k hk)

instance (v : String) (keys : List String) : Decidable (TokenFreeFor v keys) :=
  inferInstanceAs (Decidable (∀ k ∈ keys, jsIncludes v (":" ++ k) = false))

lemma substituteString_keys_hit (front back : List (String × String)) (k v s : String)
    (hfront : ∀ k' ∈ front.map Prod.fst, jsIncludes s (":" ++ k') = false)
    (hhit : s = ":" ++ k)
    (hdollar : includesChar v '$' = false)
    (hback : TokenFreeFor v (back.map Prod.fst)) :
    substituteString (front ++ (k, v) :: back) s = v := by
  induction front with
  | nil =>
    rw [List.nil_append, substituteString_hit _ _ _ _ hhit hdollar]
    exact substituteString_of_keys _ _ (fun k' hk' => hback k' hk')
  | cons kv0 rest ih =>
    obtain ⟨k0, v0⟩ := kv0
    rw [List.cons_append, substituteString_skip _ _ _ _ (hfront k0 (by simp))]
    exact ih (fun k' hk' => hfront k' (by simp [hk']))

/-- C4 (amended): substitution is a structure-preserving recursive walk —
the shape (constructors, array lengths, object keys and order) is preserved,
non-string leaves pass through unchanged, and each call builds a new
structure (the embedding is pure, the template value itself is untouched).
For the repository's factory template and any parameter map that passes
validation, every placeholder bound by the map (`:chain`, `:authority`,
`:kid`, `:rpc`, `:actionIpfsId`) is literally replaced by its validated
value and — provided no parameter value itself contains a `:name` token for
a bound name or a JS `$` replacement directive — no bound placeholder
survives in the output; the unbound
placeholders `:userAddress` and `:currentActionIpfsId` (filled at runtime
by the Lit action) remain. -/
theorem substitution_structure_amended
    (accessId kidV authV ledgerV chainIdV rpcV chainV actV : String)
    (hval : validateParameters
        [("kid", kidV), ("authority", authV), ("ledger", ledgerV), ("chainId", chainIdV),
         ("rpc", rpcV), ("chain", chainV), ("actionIpfsId", actV)] =
      .ok [("kid", kidV), ("authority", authV), ("ledger", ledgerV), ("chainId", chainIdV),
         ("rpc", rpcV), ("chain", chainV), ("actionIpfsId", actV)])
    (hkidV : TokenFreeFor kidV substKeys) (hauthV : TokenFreeFor authV substKeys)
    (hrpcV : TokenFreeFor rpcV substKeys) (hchainV : TokenFreeFor chainV substKeys)
    (hactV : TokenFreeFor actV substKeys)
    (hkidD : includesChar kidV '$' = false) (hauthD : includesChar authV '$' = false)
    (hrpcD : includesChar rpcV '$' = false) (hchainD : includesChar chainV '$' = false)
    (hactD : includesChar actV '$' = false)
    (hacc : TokenFreeFor ("ipfs://" ++ accessId) substKeys) :
    (∀ ps v, shapeOf (safeReplaceParameters ps v) = shapeOf v) ∧
    (∀ ps l, shapeOfList (safeReplaceList ps l) = shapeOfList l) ∧
    (∀ ps n, safeReplaceParameters ps (JValue.num n) = JValue.num n) ∧
    (∀ ps b, safeReplaceParameters ps (JValue.bool b) = JValue.bool b) ∧
    (∀ ps, safeReplaceParameters ps JValue.null = JValue.null) ∧
    replaceConditionsParameters (accessControlsTemplate accessId)
        [("kid", kidV), ("authority", authV), ("ledger", ledgerV), ("chainId", chainIdV),
         ("rpc", rpcV), ("chain", chainV), ("actionIpfsId", actV)] =
      .ok
        [ .obj
            [ ("conditionType", .str "evmBasic")
            , ("contractAddress", .str "")
            , ("standardContractType", .str "")
            , ("chain", .str chainV)
            , ("method", .str "")
            , ("parameters", .arr [.str ":currentActionIpfsId"])
            , ("returnValueTest", .obj [("comparator", .str "="), ("value", .str actV)])
            ]
        , .obj [("operator", .str "and")]
        , .obj
            [ ("conditionType", .str "evmBasic")
            , ("contractAddress", .str ("ipfs://" ++ accessId))
            , ("standardContractType", .str "LitAction")
            , ("chain", .str chainV)
            , ("method", .str "hasAccessByContentId")
            , ("parameters", .arr [.str ":userAddress", .str kidV, .str authV, .str rpcV])
            , ("returnValueTest", .obj [("comparator", .str "="), ("value", .str "true")])
            ]
        ] := by
  refine ⟨shapeOf_safeReplace, shapeOfList_safeReplace,
    fun ps n => rfl, fun ps b => rfl, fun ps => rfl, ?_⟩
  unfold replaceConditionsParameters
  rw [hval]
  refine congrArg Except.ok ?_
  have hconst : ∀ s : String, TokenFreeFor s substKeys →
      substituteString
        [("kid", kidV), ("authority", authV), ("ledger", ledgerV), ("chainId", chainIdV),
         ("rpc", rpcV), ("chain", chainV), ("actionIpfsId", actV)] s = s :=
    fun s hs => substituteString_of_keys _ _ (fun k hk => hs k hk)
  have h01 : substituteString
      [("kid", kidV), ("authority", authV), ("ledger", ledgerV), ("chainId", chainIdV),
       ("rpc", rpcV), ("chain", chainV), ("actionIpfsId", actV)] "evmBasic" = "evmBasic" :=
    hconst _ (by decide)
  have h02 : substituteString
      [("kid", kidV), ("authority", authV), ("ledger", ledgerV), ("chainId", chainIdV),
       ("rpc", rpcV), ("chain", chainV), ("actionIpfsId", actV)] "" = "" :=
    hconst _ (by decide)
  have h03 : substituteString
      [("kid", kidV), ("authority", authV), ("ledger", ledgerV), ("chainId", chainIdV),
       ("rpc", rpcV), ("chain", chainV), ("actionIpfsId", actV)] ":currentActionIpfsId" =
      ":currentActionIpfsId" :=
    hconst _ (by decide)
  have h04 : substituteString
      [("kid", kidV), ("authority", authV), ("ledger", ledgerV), ("chainId", chainIdV),
       ("rpc", rpcV), ("chain", chainV), ("actionIpfsId", actV)] "=" = "=" :=
    hconst _ (by decide)
  have h05 : substituteString
      [("kid", kidV), ("authority", authV), ("ledger", ledgerV), ("chainId", chainIdV),
       ("rpc", rpcV), ("chain", chainV), ("actionIpfsId", actV)] "and" = "and" :=
    hconst _ (by decide)
  have h06 : substituteString
      [("kid", kidV), ("authority", authV), ("ledger", ledgerV), ("chainId", chainIdV),
       ("rpc", rpcV), ("chain", chainV), ("actionIpfsId", actV)] "LitAction" = "LitAction" :=
    hconst _ (by decide)
  have h07 : substituteString
      [("kid", kidV), ("authority", authV), ("ledger", ledgerV), ("chainId", chainIdV),
       ("rpc", rpcV), ("chain", chainV), ("actionIpfsId", actV)] "hasAccessByContentId" =
      "hasAccessByContentId" :=
    hconst _ (by decide)
  have h08 : substituteString
      [("kid", kidV), ("authority", authV), ("ledger", ledgerV), ("chainId", chainIdV),
       ("rpc", rpcV), ("chain", chainV), ("actionIpfsId", actV)] ":userAddress" =
      ":userAddress" :=
    hconst _ (by decide)
  have h09 : substituteString
      [("kid", kidV), ("authority", authV), ("ledger", ledgerV), ("chainId", chainIdV),
       ("rpc", rpcV), ("chain", chainV), ("actionIpfsId", actV)] "true" = "true" :=
    hconst _ (by decide)
  have h10 : substituteString
      [("kid", kidV), ("authority", authV), ("ledger", ledgerV), ("chainId", chainIdV),
       ("rpc", rpcV), ("chain", chainV), ("actionIpfsId", actV)] ("ipfs://" ++ accessId) =
      "ipfs://" ++ accessId :=
    hconst _ hacc
  have h11 : substituteString
      [("kid", kidV), ("authority", authV), ("ledger", ledgerV), ("chainId", chainIdV),
       ("rpc", rpcV), ("chain", chainV), ("actionIpfsId", actV)] ":kid" = kidV :=
    substituteString_keys_hit []
      [("authority", authV), ("ledger", ledgerV), ("chainId", chainIdV),
       ("rpc", rpcV), ("chain", chainV), ("actionIpfsId", actV)] "kid" kidV ":kid"
      (by decide : ∀ k' ∈ ([] : List String), jsIncludes ":kid" (":" ++ k') = false)
      (by decide)
      hkidD
      (@TokenFreeFor.mono kidV substKeys
        ["authority", "ledger", "chainId", "rpc", "chain", "actionIpfsId"] hkidV (by decide))
  have h12 : substituteString
      [("kid", kidV), ("authority", authV), ("ledger", ledgerV), ("chainId", chainIdV),
       ("rpc", rpcV), ("chain", chainV), ("actionIpfsId", actV)] ":authority" = authV :=
    substituteString_keys_hit [("kid", kidV)]
      [("ledger", ledgerV), ("chainId", chainIdV),
       ("rpc", rpcV), ("chain", chainV), ("actionIpfsId", actV)] "authority" authV ":authority"
      (by decide : ∀ k' ∈ (["kid"] : List String), jsIncludes ":authority" (":" ++ k') = false)
      (by decide)
      hauthD
      (@TokenFreeFor.mono authV substKeys
        ["ledger", "chainId", "rpc", "chain", "actionIpfsId"] hauthV (by decide))
  have h13 : substituteString
      [("kid", kidV), ("authority", authV), ("ledger", ledgerV), ("chainId", chainIdV),
       ("rpc", rpcV), ("chain", chainV), ("actionIpfsId", actV)] ":rpc" = rpcV :=
    substituteString_keys_hit
      [("kid", kidV), ("authority", authV), ("ledger", ledgerV), ("chainId", chainIdV)]
      [("chain", chainV), ("actionIpfsId", actV)] "rpc" rpcV ":rpc"
      (by decide : ∀ k' ∈ (["kid", "authority", "ledger", "chainId"] : List String),
        jsIncludes ":rpc" (":" ++ k') = false)
      (by decide)
      hrpcD
      (@TokenFreeFor.mono rpcV substKeys ["chain", "actionIpfsId"] hrpcV (by decide))
  have h14 : substituteString
      [("kid", kidV), ("authority", authV), ("ledger", ledgerV), ("chainId", chainIdV),
       ("rpc", rpcV), ("chain", chainV), ("actionIpfsId", actV)] ":chain" = chainV :=
    substituteString_keys_hit
      [("kid", kidV), ("authority", authV), ("ledger", ledgerV), ("chainId", chainIdV),
       ("rpc", rpcV)]
      [("actionIpfsId", actV)] "chain" chainV ":chain"
      (by decide : ∀ k' ∈ (["kid", "authority", "ledger", "chainId", "rpc"] : List String),
        jsIncludes ":chain" (":" ++ k') = false)
      (by decide)
      hchainD
      (@TokenFreeFor.mono chainV substKeys ["actionIpfsId"] hchainV (by decide))
  have h15 : substituteString
      [("kid", kidV), ("authority", authV), ("ledger", ledgerV), ("chainId", chainIdV),
       ("rpc", rpcV), ("chain", chainV), ("actionIpfsId", actV)] ":actionIpfsId" = actV :=
    substituteString_keys_hit
      [("kid", kidV), ("authority", authV), ("ledger", ledgerV), ("chainId", chainIdV),
       ("rpc", rpcV), ("chain", chainV)]
      [] "actionIpfsId" actV ":actionIpfsId"
      (by decide : ∀ k' ∈ (["kid", "authority", "ledger", "chainId", "rpc", "chain"] :
        List String), jsIncludes ":actionIpfsId" (":" ++ k') = false)
      (by decide)
      hactD
      (@TokenFreeFor.mono actV substKeys [] hactV (by decide))
  simp only [accessControlsTemplate, safeReplaceList, safeReplaceParameters, safeReplaceFields,
    h01, h02, h03, h04, h05, h06, h07, h08, h09, h10, h11, h12, h13, h14, h15]

set_option maxRecDepth 16000 in
/-- C4 witness: the amended materialization at the concrete parameter map
(the EOA profile's access-check script id). -/
theorem substitution_structure_amended_witness :
    replaceConditionsParameters
        (accessControlsTemplate "QmVdU5MhsQg5mhZNNmp3qx3bbuGw6FPrUGws1yUycY9vsS")
        cexSubstParams =
      .ok
        [ .obj
            [ ("conditionType", .str "evmBasic")
            , ("contractAddress", .str "")
            , ("standardContractType", .str "")
            , ("chain", .str "base")
            , ("method", .str "")
            , ("parameters", .arr [.str ":currentActionIpfsId"])
            , ("returnValueTest", .obj
                [("comparator", .str "="),
                 ("value", .str "QmQgw91ZjsT1VkhxtibNV4zMet6vQTtQwL4FK5cRA8xHim")])
            ]
        , .obj [("operator", .str "and")]
        , .obj
            [ ("conditionType", .str "evmBasic")
            , ("contractAddress", .str ("ipfs://" ++ "QmVdU5MhsQg5mhZNNmp3qx3bbuGw6FPrUGws1yUycY9vsS"))
            , ("standardContractType", .str "LitAction")
            , ("chain", .str "base")
            , ("method", .str "hasAccessByContentId")
            , ("parameters", .arr
                [.str ":userAddress", .str "0xdeadbeefdeadbeefdeadbeefdeadbeef",
                 .str "0x1234567890123456789012345678901234567890",
                 .str "https://rpc.example.com"])
            , ("returnValueTest", .obj [("comparator", .str "="), ("value", .str "true")])
            ]
        ] :=
  (substitution_structure_amended "QmVdU5MhsQg5mhZNNmp3qx3bbuGw6FPrUGws1yUycY9vsS"
    "0xdeadbeefdeadbeefdeadbeefdeadbeef" "0x1234567890123456789012345678901234567890"
    "elacity" "8453" "https://rpc.example.com" "base"
    "QmQgw91ZjsT1VkhxtibNV4zMet6vQTtQwL4FK5cRA8xHim"
    (by decide) (by decide) (by decide) (by decide) (by decide) (by decide)
    (by decide) (by decide) (by decide) (by decide) (by decide)
    (by decide)).2.2.2.2.2

end LitKeystore
